import Mathlib

/-!
# SmartMeetOS — verification of spec claims against the source

Shallow embedding of the core logic of the SmartMeetOS repository:

* `Grouping` — `src/agents/grouping_node.py` (`_normalize_group_label`,
  `get_default_group_label`).
* `RateLimit` — `src/agents/chunk_extractor.py` (`_estimate_tokens`, the
  estimate handed to `_WindowRateLimiter.acquire` in `_groq_chat`).
* `ActiveLock` — `src/smartmeetos/notetaker/active_lock.py`.
* `Extractor` — `src/agents/chunk_extractor_node.py` (JSON-fallback row
  cleaning) and `src/agents/db_write_tools.py` (`insert_extracted_facts`).
* `Calendar` — `src/check_calendar.py` (`run_once` classification, overlap
  policy and trigger-state writes, modelled as a pure poll step and traces).
* `Supervisor` — `src/smartmeetos/notetaker/supervisor.py`
  (`supervise_meeting` outer-loop head checks and one inner-loop poll
  iteration, modelled as pure step functions over observed inputs).
* `Merge` — `src/smartmeetos/notetaker/transcript_merge.py`
  (`merge_transcripts_for_meeting` over an abstract file-system state).

Conventions: machine integers and timestamps are `Int` (seconds; Python
`datetime` comparisons map to integer comparisons), Python strings are Lean
`String`/`List Char` (ASCII fragment of `str.lower`/`str.strip`; every
character outside the ASCII range handled here is removed by the code paths
modelled before it can influence a result), Python `dict` state files are
association lists with in-place overwrite, and fallible external library
calls (UUID/ISO-datetime parsing, JSON text decoding) are explicit
parameters or `Option`-valued inputs of the model.
-/

namespace SmartMeetOS

/-! ## Grouping — `src/agents/grouping_node.py` -/

namespace Grouping

/-- Python `\s` / `str.strip` whitespace, ASCII fragment (code points):
space 32, tab 9, newline 10, carriage return 13, vertical tab 11, form
feed 12. -/
def isPyWs (c : Char) : Bool :=
  c.toNat = 32 || c.toNat = 9 || c.toNat = 10 || c.toNat = 13 ||
    c.toNat = 11 || c.toNat = 12

/-- Characters `[a-z0-9]` (the regex's alphanumeric class), by code point:
`a`–`z` is 97–122, `0`–`9` is 48–57. -/
def isLowerAlnum (c : Char) : Bool :=
  (97 ≤ c.toNat && c.toNat ≤ 122) || (48 ≤ c.toNat && c.toNat ≤ 57)

/-- Characters kept by `re.sub(r"[^a-z0-9_\-]", "", s)`; `_` is 95, `-` is 45. -/
def isAllowed (c : Char) : Bool :=
  isLowerAlnum c || c.toNat = 95 || c.toNat = 45

/-- `str.lower`, ASCII fragment (`A`–`Z` is 65–90; full Unicode case mapping
is irrelevant here: any character that is not already in `[a-z0-9_-]` after
lowering is removed by `isAllowed` filtering before it can reach an output). -/
def pyToLower (c : Char) : Char :=
  if 65 ≤ c.toNat && c.toNat ≤ 90 then Char.ofNat (c.toNat + 32) else c

/-- `str.strip()` : drop leading and trailing whitespace. -/
def pyStrip (l : List Char) : List Char :=
  ((l.dropWhile isPyWs).reverse.dropWhile isPyWs).reverse

/-- `re.sub(r"\s+", "_", s)` : each maximal run of whitespace becomes one
underscore. -/
def wsToUnderscore : List Char → List Char
  | [] => []
  | [c] => if isPyWs c then ['_'] else [c]
  | c₁ :: c₂ :: rest =>
    if isPyWs c₁ && isPyWs c₂ then wsToUnderscore (c₂ :: rest)
    else if isPyWs c₁ then '_' :: wsToUnderscore (c₂ :: rest)
    else c₁ :: wsToUnderscore (c₂ :: rest)

/-- `re.sub(r"_+", "_", s)` : each maximal run of underscores becomes one
underscore. -/
def collapseUnderscores : List Char → List Char
  | [] => []
  | [c] => [c]
  | c₁ :: c₂ :: rest =>
    if c₁.toNat = 95 && c₂.toNat = 95 then collapseUnderscores (c₂ :: rest)
    else c₁ :: collapseUnderscores (c₂ :: rest)

/-- Characters stripped by `str.strip("_-")` (`_` is 95, `-` is 45). -/
def isUnderscoreDash (c : Char) : Bool := c.toNat = 95 || c.toNat = 45

/-- `str.strip("_-")` : drop leading and trailing `_` and `-`. -/
def stripUnderscoreDash (l : List Char) : List Char :=
  ((l.dropWhile isUnderscoreDash).reverse.dropWhile isUnderscoreDash).reverse

/-- The language of `_GROUP_LABEL_RE = ^[a-z0-9][a-z0-9_\-]{0,98}[a-z0-9]$|^[a-z0-9]$`:
nonempty, at most 100 characters, every character in `[a-z0-9_-]`, and the
first and last characters alphanumeric. -/
def groupLabelReMatch (l : List Char) : Bool :=
  !l.isEmpty && l.length ≤ 100 && l.all isAllowed &&
    isLowerAlnum (l.headD 'x') && isLowerAlnum (l.getLastD 'x')

/-- The first four statements of `_normalize_group_label`:
`strip().lower()`, whitespace runs to `_`, drop disallowed characters,
truncate to 100. -/
def prefilter (label : List Char) : List Char :=
  ((wsToUnderscore ((pyStrip label).map pyToLower)).filter isAllowed).take 100

/-- The best-effort fallback inside `_normalize_group_label` when the result
fails `_GROUP_LABEL_RE`: collapse `_` runs, `strip("_-")`, default on empty,
truncate. -/
def fixup (dflt : List Char) (s : List Char) : List Char :=
  let t := stripUnderscoreDash (collapseUnderscores s)
  (if t.isEmpty then dflt else t).take 100

/-- `_normalize_group_label` over character lists. `dflt` is
`os.environ.get("GROUPING_DEFAULT_LABEL", "ungrouped")`; with the variable
unset it is `"ungrouped"`. -/
def normalizeChars (dflt : List Char) (label : List Char) : List Char :=
  let s := prefilter label
  if s.isEmpty then dflt
  else
    let s' := if s.length > 100 then s.take 100 else s
    if groupLabelReMatch s' then s' else fixup dflt s'

/-- `_normalize_group_label` with the default label `"ungrouped"`
(`GROUPING_DEFAULT_LABEL` unset), over `String`. -/
def normalize_group_label (label : String) : String :=
  ⟨normalizeChars "ungrouped".toList label.toList⟩

theorem isAllowed_not_ws {c : Char} (h : isAllowed c = true) : isPyWs c = false := by
  simp only [isAllowed, isLowerAlnum, isPyWs, Bool.or_eq_true, Bool.and_eq_true,
    decide_eq_true_eq, Bool.or_eq_false_iff, decide_eq_false_iff_not] at *
  omega

theorem pyToLower_of_allowed {c : Char} (h : isAllowed c = true) : pyToLower c = c := by
  unfold pyToLower
  have : ¬(65 ≤ c.toNat && c.toNat ≤ 90) = true := by
    simp only [isAllowed, isLowerAlnum, Bool.or_eq_true, Bool.and_eq_true,
      decide_eq_true_eq] at *
    omega
  simp [this]

theorem allowed_not_ud_alnum {c : Char} (h : isAllowed c = true)
    (h' : isUnderscoreDash c = false) : isLowerAlnum c = true := by
  simp only [isAllowed, isLowerAlnum, isUnderscoreDash, Bool.or_eq_true, Bool.and_eq_true,
    decide_eq_true_eq, Bool.or_eq_false_iff, decide_eq_false_iff_not] at *
  omega

theorem dropWhile_eq_self_of {α : Type} {p : α → Bool} {l : List α}
    (h : ∀ c ∈ l, p c = false) : l.dropWhile p = l := by
  cases l with
  | nil => rfl
  | cons a t => simp [List.dropWhile_cons, h a (by simp)]

theorem pyStrip_eq_self {l : List Char} (h : ∀ c ∈ l, isPyWs c = false) :
    pyStrip l = l := by
  unfold pyStrip
  rw [dropWhile_eq_self_of h,
    dropWhile_eq_self_of (fun c hc => h c (List.mem_reverse.mp hc)),
    List.reverse_reverse]

theorem map_pyToLower_eq_self {l : List Char} (h : ∀ c ∈ l, isAllowed c = true) :
    l.map pyToLower = l := by
  induction l with
  | nil => rfl
  | cons a t ih =>
    simp only [List.map_cons, pyToLower_of_allowed (h a (by simp)),
      ih (fun c hc => h c (by simp [hc]))]

theorem wsToUnderscore_eq_self : ∀ {l : List Char},
    (∀ c ∈ l, isPyWs c = false) → wsToUnderscore l = l
  | [], _ => rfl
  | [c], h => by simp [wsToUnderscore, h c (by simp)]
  | c₁ :: c₂ :: rest, h => by
    have h₁ := h c₁ (by simp)
    have hrest : wsToUnderscore (c₂ :: rest) = c₂ :: rest :=
      wsToUnderscore_eq_self (fun c hc => h c (List.mem_cons_of_mem c₁ hc))
    simp [wsToUnderscore, h₁, hrest]

theorem mem_collapseUnderscores : ∀ {l : List Char} {c : Char},
    c ∈ collapseUnderscores l → c ∈ l
  | [], c, h => by simp [collapseUnderscores] at h
  | [a], c, h => by simpa [collapseUnderscores] using h
  | a :: b :: rest, c, h => by
    simp only [collapseUnderscores] at h
    split at h
    · exact List.mem_cons_of_mem a (mem_collapseUnderscores h)
    · rcases List.mem_cons.mp h with rfl | h'
      · exact List.mem_cons_self _ _
      · exact List.mem_cons_of_mem a (mem_collapseUnderscores h')

theorem length_collapseUnderscores_le : ∀ (l : List Char),
    (collapseUnderscores l).length ≤ l.length
  | [] => by simp [collapseUnderscores]
  | [a] => by simp [collapseUnderscores]
  | a :: b :: rest => by
    simp only [collapseUnderscores]
    split
    · exact Nat.le_succ_of_le (length_collapseUnderscores_le (b :: rest))
    · simpa using length_collapseUnderscores_le (b :: rest)

theorem dropWhile_head_not {α : Type} {p : α → Bool} :
    ∀ {l : List α} {c : α} {t : List α}, l.dropWhile p = c :: t → p c = false
  | [], c, t, h => by simp [List.dropWhile] at h
  | a :: l, c, t, h => by
    rw [List.dropWhile_cons] at h
    split at h
    · exact dropWhile_head_not h
    · cases h; simpa using ‹¬p a = true›

theorem getLast?_dropWhile {α : Type} {p : α → Bool} :
    ∀ (l : List α), l.dropWhile p ≠ [] → (l.dropWhile p).getLast? = l.getLast?
  | [], h => by simp [List.dropWhile] at h
  | a :: l, h => by
    rw [List.dropWhile_cons] at h ⊢
    by_cases hp : p a = true
    · rw [if_pos hp] at h ⊢
      cases l with
      | nil => simp [List.dropWhile] at h
      | cons b t =>
        rw [getLast?_dropWhile (b :: t) h, List.getLast?_cons_cons]
    · rw [if_neg hp]

theorem mem_stripUnderscoreDash {l : List Char} {c : Char}
    (h : c ∈ stripUnderscoreDash l) : c ∈ l := by
  unfold stripUnderscoreDash at h
  rw [List.mem_reverse] at h
  have h₂ := (List.dropWhile_sublist _).subset h
  rw [List.mem_reverse] at h₂
  exact (List.dropWhile_sublist _).subset h₂

theorem length_stripUnderscoreDash_le (l : List Char) :
    (stripUnderscoreDash l).length ≤ l.length := by
  unfold stripUnderscoreDash
  calc ((l.dropWhile isUnderscoreDash).reverse.dropWhile isUnderscoreDash).reverse.length
      = ((l.dropWhile isUnderscoreDash).reverse.dropWhile isUnderscoreDash).length := by
        rw [List.length_reverse]
    _ ≤ (l.dropWhile isUnderscoreDash).reverse.length :=
        (List.dropWhile_sublist _).length_le
    _ = (l.dropWhile isUnderscoreDash).length := by rw [List.length_reverse]
    _ ≤ l.length := (List.dropWhile_sublist _).length_le

theorem stripUnderscoreDash_getLast {l : List Char} {c : Char} {t : List Char}
    (h : stripUnderscoreDash l = c :: t) :
    isUnderscoreDash ((c :: t).getLastD 'x') = false := by
  unfold stripUnderscoreDash at h
  have h' : (l.dropWhile isUnderscoreDash).reverse.dropWhile isUnderscoreDash
      = (c :: t).reverse := by rw [← h, List.reverse_reverse]
  have hne : (c :: t).reverse ≠ [] := by simp
  obtain ⟨d, u, hd⟩ := List.exists_cons_of_ne_nil hne
  rw [hd] at h'
  have hdnot := dropWhile_head_not h'
  have : (c :: t).getLastD 'x' = d := by
    rw [List.getLastD_eq_getLast?, ← List.head?_reverse, hd]
    rfl
  rw [this]
  exact hdnot

theorem stripUnderscoreDash_head {l : List Char} {c : Char} {t : List Char}
    (h : stripUnderscoreDash l = c :: t) : isUnderscoreDash c = false := by
  unfold stripUnderscoreDash at h
  set A := l.dropWhile isUnderscoreDash with hA
  have hBne : A.reverse.dropWhile isUnderscoreDash ≠ [] := by
    intro he
    rw [he] at h
    simp at h
  have hlast : (A.reverse.dropWhile isUnderscoreDash).getLast? = A.reverse.getLast? :=
    getLast?_dropWhile A.reverse hBne
  have hc : (A.reverse.dropWhile isUnderscoreDash).getLast? = some c := by
    rw [← List.head?_reverse, h]
    rfl
  have hAne : A ≠ [] := by
    intro he
    rw [he] at hBne
    simp [List.dropWhile] at hBne
  obtain ⟨a, u, ha⟩ := List.exists_cons_of_ne_nil hAne
  have hhead : A.reverse.getLast? = some a := by
    rw [List.getLast?_reverse, ha]
    rfl
  have : a = c := by
    rw [hlast, hhead] at hc
    exact Option.some.inj hc
  subst this
  exact dropWhile_head_not (l := l) (by rw [← hA, ha])

theorem mem_prefilter {l : List Char} {c : Char} (h : c ∈ prefilter l) :
    isAllowed c = true := by
  unfold prefilter at h
  exact List.of_mem_filter (List.mem_of_mem_take h)

theorem length_prefilter_le (l : List Char) : (prefilter l).length ≤ 100 := by
  unfold prefilter
  exact List.length_take_le 100 _

/-- A string in the language of `_GROUP_LABEL_RE` is a fixed point of
`_normalize_group_label` (the normal-form half of idempotence). -/
theorem normalizeChars_of_match {d : List Char} {l : List Char}
    (h : groupLabelReMatch l = true) : normalizeChars d l = l := by
  have hcopy := h
  simp only [groupLabelReMatch, Bool.and_eq_true, List.all_eq_true, Bool.not_eq_true',
    List.isEmpty_eq_false, decide_eq_true_eq] at hcopy
  obtain ⟨⟨⟨⟨hne, hlen⟩, hall⟩, _⟩, _⟩ := hcopy
  have hpre : prefilter l = l := by
    unfold prefilter
    rw [pyStrip_eq_self (fun c hc => isAllowed_not_ws (hall c hc)),
      map_pyToLower_eq_self hall,
      wsToUnderscore_eq_self (fun c hc => isAllowed_not_ws (hall c hc)),
      List.filter_eq_self.mpr hall,
      List.take_of_length_le hlen]
  unfold normalizeChars
  rw [hpre]
  rw [if_neg (by simp [List.isEmpty_iff, hne])]
  rw [if_neg (show ¬(l.length > 100) by omega), if_pos h]

/-- Every output of `_normalize_group_label` (default `"ungrouped"`) is in
the language of `_GROUP_LABEL_RE`. -/
theorem groupLabelReMatch_normalizeChars (l : List Char) :
    groupLabelReMatch (normalizeChars "ungrouped".toList l) = true := by
  unfold normalizeChars
  set s := prefilter l with hs
  by_cases hemp : s.isEmpty = true
  · rw [if_pos hemp]
    decide
  · rw [if_neg hemp]
    have hlen : s.length ≤ 100 := length_prefilter_le l
    rw [if_neg (show ¬(s.length > 100) by omega)]
    by_cases hre : groupLabelReMatch s = true
    · rw [if_pos hre]
      exact hre
    · rw [if_neg hre]
      unfold fixup
      set t := stripUnderscoreDash (collapseUnderscores s) with ht
      show groupLabelReMatch (List.take 100 (if t.isEmpty = true then "ungrouped".toList else t)) = true
      by_cases htemp : t.isEmpty = true
      · rw [if_pos htemp]
        decide
      · rw [if_neg htemp]
        have htne : t ≠ [] := by
          intro he
          rw [he] at htemp
          simp at htemp
        obtain ⟨c, u, hc⟩ := List.exists_cons_of_ne_nil htne
        have htlen : t.length ≤ 100 := by
          calc t.length ≤ (collapseUnderscores s).length :=
              length_stripUnderscoreDash_le _
            _ ≤ s.length := length_collapseUnderscores_le _
            _ ≤ 100 := hlen
        have htall : ∀ x ∈ t, isAllowed x = true := fun x hx =>
          mem_prefilter (hs ▸ mem_collapseUnderscores (mem_stripUnderscoreDash hx))
        rw [List.take_of_length_le htlen]
        have hhead : isUnderscoreDash c = false := stripUnderscoreDash_head (hc ▸ ht.symm)
        have hlast : isUnderscoreDash ((c :: u).getLastD 'x') = false :=
          stripUnderscoreDash_getLast (hc ▸ ht.symm)
        have hlastmem : (c :: u).getLastD 'x' ∈ t := by
          rw [List.getLastD_eq_getLast?, List.getLast?_eq_getLast _ (by simp),
            Option.getD_some, hc]
          exact List.getLast_mem _
        rw [hc]
        simp only [groupLabelReMatch, Bool.and_eq_true, List.all_eq_true]
        refine ⟨⟨⟨⟨by simp, by rw [← hc]; simpa using htlen⟩, fun x hx => htall x (hc ▸ hx)⟩, ?_⟩, ?_⟩
        · simpa using allowed_not_ud_alnum (htall c (hc ▸ List.mem_cons_self _ _)) hhead
        · exact allowed_not_ud_alnum (htall _ hlastmem) hlast

/-- C8 (confirmed): group-label normalization is idempotent — for every
input string `x`, `normalize(normalize(x)) = normalize(x)`, where
`normalize` is `_normalize_group_label` from `src/agents/grouping_node.py`
with the default label `"ungrouped"`. -/
theorem C8_normalize_group_label_idempotent (x : String) :
    normalize_group_label (normalize_group_label x) = normalize_group_label x := by
  unfold normalize_group_label
  exact congrArg String.mk (normalizeChars_of_match (groupLabelReMatch_normalizeChars x.toList))

end Grouping

/-! ## Rate limiter token estimation — `src/agents/chunk_extractor.py` -/

namespace RateLimit

/-- `_estimate_tokens(text) = max(1, int(len(text) / 4))`. Python `int` on a
nonnegative float truncates downward, so this is `max 1 ⌊len/4⌋`. -/
def estimate_tokens (text : String) : Nat := max 1 (text.length / 4)

/-- `"\n".join(str(m.get("content", "")) for m in messages)` — the prompt
text whose length feeds the estimate. -/
def joinedContents (contents : List String) : String :=
  String.intercalate "\n" contents

/-- `est = _estimate_tokens(joined) + max(32, max_output_tokens)` — the
value passed to `_WindowRateLimiter.acquire` by `_groq_chat`. -/
def groq_est_tokens (contents : List String) (max_output_tokens : Nat) : Nat :=
  estimate_tokens (joinedContents contents) + max 32 max_output_tokens

/-- Ceiling division by 4, the per-text estimate the spec claims. -/
def ceilDiv4 (n : Nat) : Nat := (n + 3) / 4

/-- Modelled from the amended claim's words: the per-text estimate the code
actually computes, phrased directly — 1 for texts shorter than 4
characters, otherwise `⌊len/4⌋`. -/
def estimate_tokens_spec (n : Nat) : Nat := if n < 4 then 1 else n / 4

/-- C9 (counterexample): for the 5-character prompt `"hello"` with expected
output 400, the value passed to `acquire` is `401`, not
`ceil(5/4) + 400 = 402` as the claim states. -/
theorem C9_estimate_not_ceiling :
    groq_est_tokens ["hello"] 400 ≠
      ceilDiv4 (joinedContents ["hello"]).length + 400 := by
  decide

/-- C9 (amended): the per-text estimate is `max(1, ⌊len/4⌋)` — the floor,
not the ceiling — and the value passed to `acquire` is that estimate of the
newline-joined message contents plus `max(32, max_output_tokens)`. -/
theorem C9_estimate_is_floor (contents : List String) (max_output_tokens : Nat) :
    groq_est_tokens contents max_output_tokens =
      estimate_tokens_spec (joinedContents contents).length
        + max 32 max_output_tokens := by
  unfold groq_est_tokens estimate_tokens estimate_tokens_spec
  congr 1
  rcases Nat.lt_or_ge (joinedContents contents).length 4 with h | h
  · rw [if_pos h]
    have : (joinedContents contents).length / 4 = 0 := Nat.div_eq_of_lt h
    rw [this]
    decide
  · rw [if_neg (Nat.not_lt.mpr h)]
    have h1 : 1 ≤ (joinedContents contents).length / 4 :=
      (Nat.one_le_div_iff (by norm_num)).mpr h
    exact Nat.max_eq_right h1

end RateLimit

/-! ## A small JSON value type

Stands for the values produced by Python's `json.loads` (the text-to-value
decoding itself is the standard library's, outside the repository; models
that consume parsed JSON take values of this type, and models of code that
may receive unparseable text take `Option Json`, `none` standing for a
`json.loads` failure). Object field lists have unique keys, as `json.loads`
guarantees. -/

inductive Json where
  | null
  | bool (b : Bool)
  | num (n : ℚ)
  | str (s : String)
  | arr (elems : List Json)
  | obj (fields : List (String × Json))

/-- `dict.get(key)` on a parsed JSON object. -/
def jsonGet (fields : List (String × Json)) (k : String) : Option Json :=
  match fields with
  | [] => none
  | (k', v) :: rest => if k' = k then some v else jsonGet rest k

/-! ## Active-meeting lock — `src/smartmeetos/notetaker/active_lock.py` -/

namespace ActiveLock

/-- The dataclass `ActiveMeetingLock`. -/
structure ActiveMeetingLock where
  event_id : String
  event_start_utc : String
  expires_at_utc : String

/-- State of `active_meeting.json`: `none` = file absent; `some none` =
present but `json.loads` raises; `some (some j)` = parses to `j`. -/
abbrev LockFile := Option (Option Json)

/-- `read_active_lock`, as a function of the lock-file state. -/
def read_active_lock (file : LockFile) : Option ActiveMeetingLock :=
  match file with
  | none => none
  | some none => none
  | some (some (Json.obj fields)) =>
    match jsonGet fields "event_id", jsonGet fields "event_start_utc",
        jsonGet fields "expires_at_utc" with
    | some (Json.str e), some (Json.str s), some (Json.str x) => some ⟨e, s, x⟩
    | _, _, _ => none
  | some (some _) => none

/-- `lock_is_active`. `parse_iso` stands for `_parse_iso` (the standard
library's ISO-datetime parser, `none` on failure); `now` is `_utc_now()`. -/
def lock_is_active (parse_iso : String → Option Int) (now : Int)
    (lock : ActiveMeetingLock) : Bool :=
  match parse_iso lock.expires_at_utc with
  | none => false
  | some expires => now < expires

/-- The JSON object `acquire_active_lock` writes (field order as in the
Python dict literal; `created_at_utc` is `_utc_now().isoformat()`). -/
def lockPayload (event_id event_start_utc expires_at_utc created_at_utc : String) : Json :=
  Json.obj [("event_id", Json.str event_id),
            ("event_start_utc", Json.str event_start_utc),
            ("expires_at_utc", Json.str expires_at_utc),
            ("created_at_utc", Json.str created_at_utc)]

/-- `acquire_active_lock`: returns the boolean result and the lock-file
state after the call. -/
def acquire_active_lock (parse_iso : String → Option Int) (now : Int)
    (now_iso : String) (file : LockFile)
    (event_id event_start_utc expires_at_utc : String) : Bool × LockFile :=
  match read_active_lock file with
  | some current =>
    if lock_is_active parse_iso now current then (false, file)
    else (true, some (some (lockPayload event_id event_start_utc expires_at_utc now_iso)))
  | none => (true, some (some (lockPayload event_id event_start_utc expires_at_utc now_iso)))

/-- C10 (confirmed): a corrupted active-lock file is treated as absent.
(1) Unparseable JSON reads as `None`; (2) any readable lock comes from a
JSON object carrying all three string fields — so a non-object payload or
one with a missing/non-string field reads as `None`; (3) an unparseable
`expires_at_utc` makes `lock_is_active` false; (4) whenever the lock reads
as `None` or every read lock is inactive, `acquire_active_lock` succeeds
for any requested values and overwrites the file. -/
theorem C10_corrupted_lock_voids_guarantee :
    (read_active_lock (some none) = none)
    ∧ (∀ pj : Json, read_active_lock (some (some pj)) ≠ none →
        ∃ fields e s x, pj = Json.obj fields
          ∧ jsonGet fields "event_id" = some (Json.str e)
          ∧ jsonGet fields "event_start_utc" = some (Json.str s)
          ∧ jsonGet fields "expires_at_utc" = some (Json.str x))
    ∧ (∀ (parse_iso : String → Option Int) (now : Int) (lk : ActiveMeetingLock),
        parse_iso lk.expires_at_utc = none → lock_is_active parse_iso now lk = false)
    ∧ (∀ (parse_iso : String → Option Int) (now : Int) (now_iso : String)
        (file : LockFile) (e s x : String),
        (read_active_lock file = none ∨
          ∀ lk, read_active_lock file = some lk →
            lock_is_active parse_iso now lk = false) →
        acquire_active_lock parse_iso now now_iso file e s x =
          (true, some (some (lockPayload e s x now_iso)))) := by
  refine ⟨rfl, ?_, ?_, ?_⟩
  · intro pj h
    match pj with
    | Json.null | Json.bool _ | Json.num _ | Json.str _ | Json.arr _ =>
      simp [read_active_lock] at h
    | Json.obj fields =>
      refine ⟨fields, ?_⟩
      simp only [read_active_lock] at h
      match he : jsonGet fields "event_id", hs : jsonGet fields "event_start_utc",
          hx : jsonGet fields "expires_at_utc" with
      | some (Json.str e), some (Json.str s), some (Json.str x) =>
        exact ⟨e, s, x, rfl, rfl, rfl, rfl⟩
      | none, _, _ | some Json.null, _, _ | some (Json.bool _), _, _
      | some (Json.num _), _, _ | some (Json.arr _), _, _ | some (Json.obj _), _, _
      | some (Json.str _), none, _ | some (Json.str _), some Json.null, _
      | some (Json.str _), some (Json.bool _), _ | some (Json.str _), some (Json.num _), _
      | some (Json.str _), some (Json.arr _), _ | some (Json.str _), some (Json.obj _), _
      | some (Json.str _), some (Json.str _), none
      | some (Json.str _), some (Json.str _), some Json.null
      | some (Json.str _), some (Json.str _), some (Json.bool _)
      | some (Json.str _), some (Json.str _), some (Json.num _)
      | some (Json.str _), some (Json.str _), some (Json.arr _)
      | some (Json.str _), some (Json.str _), some (Json.obj _) =>
        rw [he, hs, hx] at h
        simp at h
  · intro parse_iso now lk h
    unfold lock_is_active
    rw [h]
  · intro parse_iso now now_iso file e s x h
    rcases h with h | h
    · simp [acquire_active_lock, h]
    · cases hr : read_active_lock file with
      | none => simp [acquire_active_lock, hr]
      | some current => simp [acquire_active_lock, hr, h current hr]

/-- C10 witness: a lock file holding the JSON array `[]` (not an object)
reads as `None`, and `acquire_active_lock` then succeeds and overwrites it
with the requested lock. -/
theorem C10_witness :
    read_active_lock (some (some (Json.arr []))) = none
    ∧ acquire_active_lock (fun _ => none) 0 "2025-01-01T00:00:00+00:00"
        (some (some (Json.arr []))) "ev1" "2025-01-01T10:00:00+00:00"
        "2025-01-01T11:30:00+00:00" =
      (true, some (some (lockPayload "ev1" "2025-01-01T10:00:00+00:00"
        "2025-01-01T11:30:00+00:00" "2025-01-01T00:00:00+00:00"))) := by
  have h := C10_corrupted_lock_voids_guarantee
  refine ⟨rfl, ?_⟩
  exact h.2.2.2 (fun _ => none) 0 "2025-01-01T00:00:00+00:00"
    (some (some (Json.arr []))) "ev1" "2025-01-01T10:00:00+00:00"
    "2025-01-01T11:30:00+00:00" (Or.inl rfl)

end ActiveLock

/-! ## Chunk extractor fact validation — `src/agents/chunk_extractor_node.py`
and `src/agents/db_write_tools.py` -/

namespace Extractor

/-- `FACT_TYPE_VALUES` of `chunk_extractor_node.py`, equal to the values of
`database.models.FactType`. -/
def FACT_TYPE_VALUES : List String :=
  ["statement", "proposal", "question", "decision", "action", "constraint",
   "agreement", "disagreement", "clarification", "condition", "reminder"]

/-- Python truthiness of a parsed JSON value (`x or ""` branches). -/
def pyTruthy : Json → Bool
  | Json.null => false
  | Json.bool b => b
  | Json.num n => n ≠ 0
  | Json.str s => !s.isEmpty
  | Json.arr xs => !xs.isEmpty
  | Json.obj fs => !fs.isEmpty

mutual

/-- Python `repr` of a parsed JSON value (string escaping inside container
renderings is elided; no such rendering is ever a member of
`FACT_TYPE_VALUES`, which is all any theorem below depends on). -/
def pyRepr : Json → String
  | Json.null => "None"
  | Json.bool true => "True"
  | Json.bool false => "False"
  | Json.num n => toString n
  | Json.str s => "'" ++ s ++ "'"
  | Json.arr xs => "[" ++ pyReprList xs ++ "]"
  | Json.obj fs => "\x7b" ++ pyReprFields fs ++ "\x7d"

/-- Comma-joined `repr`s of list elements. -/
def pyReprList : List Json → String
  | [] => ""
  | [j] => pyRepr j
  | j :: rest => pyRepr j ++ ", " ++ pyReprList rest

/-- Comma-joined `repr`s of dict items. -/
def pyReprFields : List (String × Json) → String
  | [] => ""
  | [(k, v)] => "'" ++ k ++ "': " ++ pyRepr v
  | (k, v) :: rest => "'" ++ k ++ "': " ++ pyRepr v ++ ", " ++ pyReprFields rest

end

/-- Python `str()` of a parsed JSON value: the string itself for strings,
`repr` otherwise. -/
def pyStr : Json → String
  | Json.str s => s
  | j => pyRepr j

/-- `str.strip()` over `String` (shared with the grouping model). -/
def pyStripString (s : String) : String := ⟨Grouping.pyStrip s.toList⟩

/-- `s[:n]` over `String`. -/
def pyTake (s : String) (n : Nat) : String := ⟨s.toList.take n⟩

/-- Decimal digits to a number (`none` when any character is not a digit). -/
def parseDigits (cs : List Char) : Option Nat :=
  match cs with
  | [] => none
  | _ =>
    if cs.all (fun c => 48 ≤ c.toNat && c.toNat ≤ 57) then
      some (cs.foldl (fun acc c => acc * 10 + (c.toNat - 48)) 0)
    else none

/-- Python `int(str)`: strip whitespace, optional sign, decimal digits
(underscore digit separators, accepted by Python, are not modelled; no
theorem below depends on such an input). -/
def parseIntStr (s : String) : Option Int :=
  match Grouping.pyStrip s.toList with
  | '+' :: rest => (parseDigits rest).map Int.ofNat
  | '-' :: rest => (parseDigits rest).map (fun n => -(n : Int))
  | cs => (parseDigits cs).map Int.ofNat

/-- Python `int(x)` on a parsed JSON value (truncation toward zero on
numbers); `none` when `int()` raises. -/
def pyInt : Json → Option Int
  | Json.num n => some (if n < 0 then -(⌊-n⌋) else ⌊n⌋)
  | Json.bool true => some 1
  | Json.bool false => some 0
  | Json.str s => parseIntStr s
  | _ => none

/-- A fact row as assembled by the extractor's JSON-fallback cleaning loop
(`_fallback_extract_and_insert_facts`, `cleaned` list). -/
structure FactRowOut where
  meeting_id : String
  source_chunk_id : String
  created_at : String
  group_label : Option String
  fact_type : String
  fact_content : String
  certainty : Int
  speaker : Option String
deriving DecidableEq

/-- The cleaning loop of `_fallback_extract_and_insert_facts` over the
parsed `facts` list: non-dict items are skipped; `meeting_id`,
`source_chunk_id`, `created_at` are overwritten with the server values;
`group_label` is forced null; `fact_type` falls back to `"statement"`
outside the enum; empty `fact_content` is dropped; `certainty` defaults to
70 and is clamped to `[0, 100]`; `speaker` is stripped, empty becoming
null. -/
def cleanFacts (meeting_id chunk_id created_at : String)
    (facts : List Json) : List FactRowOut :=
  facts.filterMap fun item =>
    match item with
    | Json.obj fields =>
      let ftRaw := match jsonGet fields "fact_type" with
        | none => ""
        | some v => if pyTruthy v then pyStr v else ""
      let ft0 := pyStripString ftRaw
      let ft := if FACT_TYPE_VALUES.contains ft0 then ft0 else "statement"
      let fcRaw := match jsonGet fields "fact_content" with
        | none => ""
        | some v => if pyTruthy v then pyStr v else ""
      let fc := pyStripString fcRaw
      if fc = "" then none
      else
        let c0 : Int := match jsonGet fields "certainty" with
          | none => 70
          | some Json.null => 70
          | some v => (pyInt v).getD 70
        let c := if c0 < 0 then 0 else if c0 > 100 then 100 else c0
        let sp := match jsonGet fields "speaker" with
          | none => none
          | some Json.null => none
          | some v =>
            let s := pyStripString (pyStr v)
            if s = "" then none else some s
        some ⟨meeting_id, chunk_id, created_at, none, ft, fc, c, sp⟩
    | _ => none

/-- A row of `insert_extracted_facts`'s pydantic schema
(`ExtractedFactRow` in `db_write_tools.py`): on the tool-call path these
fields are exactly what the model supplied in its tool call (`certainty`
defaults to 70 and `speaker`/`group_label` to null when absent). -/
structure ExtractedFactRow where
  meeting_id : String
  source_chunk_id : String
  speaker : Option String
  fact_type : String
  fact_content : String
  certainty : Int
  group_label : Option String
  created_at : String
deriving DecidableEq

/-- The `ExtractedFact` ORM row as persisted (datetimes kept as their
source strings; `uuid_ok`/`dt_ok` stand for the standard library's
`uuid.UUID` and `datetime.fromisoformat` validators, which raise on
`false`). -/
structure PersistedFact where
  meeting_id : String
  source_chunk_id : String
  speaker : Option String
  fact_type : String
  fact_content : String
  certainty : Int
  group_label : Option String
  created_at : String
deriving DecidableEq

/-- Per-row processing of `insert_extracted_facts`: UUID parsing,
strict `FactType` enum lookup (raises on an unknown value — no fallback),
certainty clamp, group-label strip/truncate, datetime parse. Note no check
on `fact_content` and no overwriting of the model-supplied identifiers. -/
def insertFactRow (uuid_ok dt_ok : String → Bool) (r : ExtractedFactRow) :
    Except String PersistedFact :=
  if uuid_ok r.meeting_id = false then Except.error "meeting_id must be a UUID string"
  else if uuid_ok r.source_chunk_id = false then Except.error "source_chunk_id must be a UUID string"
  else if FACT_TYPE_VALUES.contains r.fact_type = false then Except.error "invalid FactType value"
  else if dt_ok r.created_at = false then Except.error "created_at must be an ISO datetime"
  else
    Except.ok ⟨r.meeting_id, r.source_chunk_id, r.speaker, r.fact_type, r.fact_content,
      (if r.certainty < 0 then 0 else if r.certainty > 100 then 100 else r.certainty),
      (match r.group_label with
       | none => none
       | some g =>
         let g' := pyStripString g
         if g' = "" then none else some (pyTake g' 100)),
      r.created_at⟩

/-- `insert_extracted_facts` over a row list: the transaction commits all
rows or — on the first validation error — rolls back and persists
nothing. -/
def insert_extracted_facts (uuid_ok dt_ok : String → Bool) :
    List ExtractedFactRow → Except String (List PersistedFact)
  | [] => Except.ok []
  | r :: rest =>
    match insertFactRow uuid_ok dt_ok r with
    | Except.error e => Except.error e
    | Except.ok p =>
      match insert_extracted_facts uuid_ok dt_ok rest with
      | Except.error e => Except.error e
      | Except.ok ps => Except.ok (p :: ps)

/-- Canonical 8-4-4-4-12 hyphenated hexadecimal UUID syntax — a sound
subset of the formats Python's `uuid.UUID` accepts, used to instantiate the
external-validator parameter at concrete inputs. -/
def isCanonicalUuid (s : String) : Bool :=
  let cs := s.toList
  cs.length = 36 && cs.enum.all fun ic =>
    if ic.1 = 8 || ic.1 = 13 || ic.1 = 18 || ic.1 = 23 then ic.2 = '-'
    else (48 ≤ ic.2.toNat && ic.2.toNat ≤ 57) || (97 ≤ ic.2.toNat && ic.2.toNat ≤ 102) ||
      (65 ≤ ic.2.toNat && ic.2.toNat ≤ 70)

/-- A model-supplied tool-call row whose `meeting_id` differs from the
server's and whose `fact_content` is empty. -/
def modelSuppliedRow : ExtractedFactRow :=
  { meeting_id := "22222222-2222-2222-2222-222222222222"
    source_chunk_id := "33333333-3333-3333-3333-333333333333"
    speaker := none
    fact_type := "statement"
    fact_content := ""
    certainty := 70
    group_label := none
    created_at := "2099-01-01T00:00:00+00:00" }

/-- C6 (counterexample): on the tool-call path the model's rows are passed
to `insert_extracted_facts` unmodified (`ChunkExtractorAgent.run` invokes
the tool with the model's own `args`), and the insert persists a row whose
`meeting_id` is the model's value — not the server's `"1111…"` — and whose
`fact_content` is empty, contradicting the claimed server-side enforcement
and empty-row dropping. -/
theorem C6_tool_path_not_enforced :
    insert_extracted_facts isCanonicalUuid (fun s => !s.isEmpty) [modelSuppliedRow] =
      Except.ok [⟨"22222222-2222-2222-2222-222222222222",
        "33333333-3333-3333-3333-333333333333", none, "statement", "", 70, none,
        "2099-01-01T00:00:00+00:00"⟩]
    ∧ (∀ p : PersistedFact,
        insert_extracted_facts isCanonicalUuid (fun s => !s.isEmpty) [modelSuppliedRow] =
          Except.ok [p] →
        p.meeting_id ≠ "11111111-1111-1111-1111-111111111111" ∧ p.fact_content = "") := by
  constructor
  · rfl
  · intro p hp
    have h1 : insert_extracted_facts isCanonicalUuid (fun s => !s.isEmpty) [modelSuppliedRow] =
        Except.ok [(⟨"22222222-2222-2222-2222-222222222222",
          "33333333-3333-3333-3333-333333333333", none, "statement", "", 70, none,
          "2099-01-01T00:00:00+00:00"⟩ : PersistedFact)] := rfl
    rw [h1] at hp
    cases hp
    exact ⟨by decide, rfl⟩

theorem insertFactRow_ok_props {uuid_ok dt_ok : String → Bool}
    {r : ExtractedFactRow} {p : PersistedFact}
    (h : insertFactRow uuid_ok dt_ok r = Except.ok p) :
    FACT_TYPE_VALUES.contains p.fact_type = true ∧ 0 ≤ p.certainty ∧ p.certainty ≤ 100 := by
  unfold insertFactRow at h
  split at h
  · cases h
  · split at h
    · cases h
    · split at h
      · cases h
      · rename_i hft
        split at h
        · cases h
        · cases h
          rw [Bool.not_eq_false] at hft
          refine ⟨hft, ?_, ?_⟩
          · dsimp only
            split
            · omega
            · split <;> omega
          · dsimp only
            split
            · omega
            · split <;> omega

/-- C6 (amended): the claimed enforcement holds on the JSON-fallback path —
every row assembled by the fallback cleaning loop carries the server-fixed
`meeting_id`, `source_chunk_id` and `created_at`, a null `group_label`, a
`fact_type` in the closed enum (falling back to `"statement"`), a
`certainty` clamped to `[0, 100]`, and a nonempty `fact_content` — while on
the tool-call path `insert_extracted_facts` only validates: every persisted
row has an enum `fact_type` and a clamped `certainty` (an unknown
`fact_type` or invalid UUID aborts the insert with an error instead of
falling back), and the model-supplied identifiers, `created_at` and
`fact_content` are stored as given. -/
theorem C6_validation_by_path :
    (∀ (mid cid cat : String) (facts : List Json) (row : FactRowOut),
      row ∈ cleanFacts mid cid cat facts →
        row.meeting_id = mid ∧ row.source_chunk_id = cid ∧ row.created_at = cat
        ∧ row.group_label = none
        ∧ FACT_TYPE_VALUES.contains row.fact_type = true
        ∧ 0 ≤ row.certainty ∧ row.certainty ≤ 100
        ∧ row.fact_content ≠ "")
    ∧ (∀ (uuid_ok dt_ok : String → Bool) (rows : List ExtractedFactRow)
        (out : List PersistedFact),
        insert_extracted_facts uuid_ok dt_ok rows = Except.ok out →
        ∀ p ∈ out, FACT_TYPE_VALUES.contains p.fact_type = true
          ∧ 0 ≤ p.certainty ∧ p.certainty ≤ 100) := by
  constructor
  · intro mid cid cat facts row hrow
    unfold cleanFacts at hrow
    obtain ⟨item, _, hf⟩ := List.mem_filterMap.mp hrow
    match item with
    | Json.null | Json.bool _ | Json.num _ | Json.str _ | Json.arr _ =>
      simp at hf
    | Json.obj fields =>
      dsimp only at hf
      split at hf
      · cases hf
      · rename_i hfc
        cases hf
        refine ⟨rfl, rfl, rfl, rfl, ?_, ?_, ?_, hfc⟩
        · dsimp only
          split
          · assumption
          · decide
        · dsimp only
          split
          · omega
          · split <;> omega
        · dsimp only
          split
          · omega
          · split <;> omega
  · intro uuid_ok dt_ok rows
    induction rows with
    | nil =>
      intro out hout p hp
      cases hout
      cases hp
    | cons r rest ih =>
      intro out hout p hp
      unfold insert_extracted_facts at hout
      split at hout
      · cases hout
      · rename_i q hq
        split at hout
        · cases hout
        · rename_i qs hqs
          cases hout
          rcases List.mem_cons.mp hp with rfl | hmem
          · exact insertFactRow_ok_props hq
          · exact ih qs hqs p hmem

/-- A model-output fact object exercising the fallback enforcement: an
out-of-enum `fact_type`, an over-range `certainty`, and padded content. -/
def fallbackWitnessJson : Json :=
  Json.obj [("fact_type", Json.str "bogus"), ("fact_content", Json.str " hi "),
    ("certainty", Json.num 150)]

/-- C6 witness: the amended theorem applied to one concrete fallback fact
(yielding `fact_type = "statement"`, `certainty = 100`, content `"hi"`) and
one concrete tool-path insert. -/
theorem C6_validation_witness :
    ((⟨"m", "c", "t", none, "statement", "hi", 100, none⟩ : FactRowOut) ∈
        cleanFacts "m" "c" "t" [fallbackWitnessJson])
    ∧ ((⟨"m", "c", "t", none, "statement", "hi", 100, none⟩ : FactRowOut).meeting_id = "m"
        ∧ (⟨"m", "c", "t", none, "statement", "hi", 100, none⟩ : FactRowOut).source_chunk_id = "c"
        ∧ (⟨"m", "c", "t", none, "statement", "hi", 100, none⟩ : FactRowOut).created_at = "t"
        ∧ (⟨"m", "c", "t", none, "statement", "hi", 100, none⟩ : FactRowOut).group_label = none
        ∧ FACT_TYPE_VALUES.contains (⟨"m", "c", "t", none, "statement", "hi", 100, none⟩ : FactRowOut).fact_type = true
        ∧ 0 ≤ (⟨"m", "c", "t", none, "statement", "hi", 100, none⟩ : FactRowOut).certainty
        ∧ (⟨"m", "c", "t", none, "statement", "hi", 100, none⟩ : FactRowOut).certainty ≤ 100
        ∧ (⟨"m", "c", "t", none, "statement", "hi", 100, none⟩ : FactRowOut).fact_content ≠ "")
    ∧ (∀ p ∈ [(⟨"m", "c", none, "statement", "x", 100, none, "t"⟩ : PersistedFact)],
        FACT_TYPE_VALUES.contains p.fact_type = true ∧ 0 ≤ p.certainty ∧ p.certainty ≤ 100) := by
  have hmem : (⟨"m", "c", "t", none, "statement", "hi", 100, none⟩ : FactRowOut) ∈
      cleanFacts "m" "c" "t" [fallbackWitnessJson] := by decide
  have hins : insert_extracted_facts (fun _ => true) (fun _ => true)
      [⟨"m", "c", none, "statement", "x", 150, none, "t"⟩] =
      Except.ok [(⟨"m", "c", none, "statement", "x", 100, none, "t"⟩ : PersistedFact)] := rfl
  exact ⟨hmem,
    C6_validation_by_path.1 "m" "c" "t" [fallbackWitnessJson] _ hmem,
    C6_validation_by_path.2 (fun _ => true) (fun _ => true)
      [⟨"m", "c", none, "statement", "x", 150, none, "t"⟩] _ hins⟩

end Extractor

/-! ## Calendar poller & scheduler — `src/check_calendar.py` (`run_once`)

One poll tick is modelled as a pure step over the in-memory trigger map
(`trigger_state.json` content, a Python dict `event_id → start_utc_iso`).
Timestamps are seconds (`Int`); the ISO rendering of a UTC instant is
injective, so the stored ISO string is modelled by the instant itself.
`lockOk` is the outcome of `acquire_active_lock` (external file state);
`dry_run` is false and the supervised (`--nylas-notetaker`) configuration is
a field of `PollCfg`. A `PollResult.skipped` entry is an occurrence for
which the step wrote both a TriggerRecord and a `MeetingRunResult` with
`failure_code = SKIPPED_OVERLAP_CONFLICT`; `dispatched` is the occurrence
for which the supervisor was invoked (after which its TriggerRecord and
result are written). -/

namespace Calendar

/-- A calendar event as classified by `run_once`: `isCancelled` is
`status == "cancelled"`, `isAllDay` the all-day start shape, `meetUrl` the
extracted conferencing link. -/
structure Event where
  id : String
  startT : Int
  endT : Int
  meetUrl : Option String
  isCancelled : Bool
  isAllDay : Bool
deriving DecidableEq

/-- Python `sub in s` substring containment. -/
def containsChars (sub : List Char) : List Char → Bool
  | [] => sub.isEmpty
  | c :: rest => sub.isPrefixOf (c :: rest) || containsChars sub rest

/-- `"meet.google.com" in url` — the supported-conferencing check. -/
def supportedUrl (u : String) : Bool :=
  containsChars "meet.google.com".toList u.toList

/-- Poller configuration: supervised mode flag and the generic trigger
window flags (defaults 2 before / 10 after, minutes). -/
structure PollCfg where
  nylas_notetaker : Bool
  trigger_before_minutes : Int
  trigger_after_minutes : Int
deriving DecidableEq

/-- The supervised-mode default configuration. -/
def defaultPollCfg : PollCfg := ⟨true, 2, 10⟩

/-- Eligibility of one event at instant `now` (the classification loop of
`run_once`): a supported meeting URL, not cancelled, not all-day, not
ended, and either in progress (`start ≤ now < end`) or inside the join
window — `[start − 2 min, start + 15 min]` in supervised mode, the generic
trigger window otherwise. -/
def eligibleEvent (cfg : PollCfg) (now : Int) (ev : Event) : Bool :=
  match ev.meetUrl with
  | none => false
  | some u =>
    supportedUrl u && !ev.isCancelled && !ev.isAllDay && decide (now < ev.endT) &&
      ((decide (ev.startT ≤ now) && decide (now < ev.endT)) ||
        (if cfg.nylas_notetaker then
          decide (ev.startT - 120 ≤ now) && decide (now ≤ ev.startT + 900)
        else
          decide (ev.startT - 60 * cfg.trigger_before_minutes ≤ now) &&
            decide (now ≤ ev.startT + 60 * cfg.trigger_after_minutes)))

/-- De-duplication by `(event_id, start)` keeping first occurrences (the
`seen_keys` loop merging the two calendar queries). -/
def dedupeGo (seen : List (String × Int)) : List Event → List Event
  | [] => []
  | ev :: rest =>
    if (ev.id, ev.startT) ∈ seen then dedupeGo seen rest
    else ev :: dedupeGo ((ev.id, ev.startT) :: seen) rest

/-- `run_once`'s merged, de-duplicated event list. -/
def dedupe (events : List Event) : List Event := dedupeGo [] events

/-- Stable insertion by start instant (equal keys keep input order), the
semantics of Python's stable `list.sort(key=start)`. -/
def insertByStart (ev : Event) : List Event → List Event
  | [] => [ev]
  | e :: rest =>
    if e.startT < ev.startT then e :: insertByStart ev rest else ev :: e :: rest

/-- Stable sort by start instant. -/
def sortByStart : List Event → List Event
  | [] => []
  | e :: rest => insertByStart e (sortByStart rest)

/-- The trigger map `event_id → start_instant` (`trigger_state.json`): a
Python dict, written with in-place overwrite. -/
abbrev TriggerState := List (String × Int)

/-- `trigger_state[event_id] = start` (dict assignment: overwrite). -/
def setKey : TriggerState → String → Int → TriggerState
  | [], k, v => [(k, v)]
  | (k', v') :: rest, k, v =>
    if k' = k then (k, v) :: rest else (k', v') :: setKey rest k v

/-- `trigger_state.get(event_id)`. -/
def getKey : TriggerState → String → Option Int
  | [], _ => none
  | (k', v) :: rest, k => if k' = k then some v else getKey rest k

/-- The sorted eligible list of one tick. -/
def eligSorted (cfg : PollCfg) (now : Int) (events : List Event) : List Event :=
  sortByStart ((dedupe events).filter (eligibleEvent cfg now))

/-- Outcome of one `run_once` tick. -/
structure PollResult where
  state : TriggerState
  skipped : List (String × Int)
  dispatched : Option Event
deriving DecidableEq

/-- Processing of the sorted eligible list (lines 370–528): record every
non-chosen event as `SKIPPED_OVERLAP_CONFLICT`, then handle the chosen
event — skip when its `(id, start)` is already the store's current entry
for that id, skip (and record) when the lock is held, otherwise dispatch
the supervisor and record the trigger. -/
def pollCore (lockOk : Bool) (st : TriggerState) : List Event → PollResult
  | [] => ⟨st, [], none⟩
  | chosen :: others =>
    let st₁ := others.foldl (fun m e => setKey m e.id e.startT) st
    let skipped := others.map fun e => (e.id, e.startT)
    if getKey st₁ chosen.id = some chosen.startT then ⟨st₁, skipped, none⟩
    else
      match chosen.meetUrl with
      | none => ⟨st₁, skipped, none⟩
      | some _ =>
        if lockOk then
          ⟨setKey st₁ chosen.id chosen.startT, skipped, some chosen⟩
        else
          ⟨setKey st₁ chosen.id chosen.startT,
            skipped ++ [(chosen.id, chosen.startT)], none⟩

/-- One `run_once` tick (lines 294–528). -/
def pollStep (cfg : PollCfg) (now : Int) (events : List Event) (lockOk : Bool)
    (st : TriggerState) : PollResult :=
  pollCore lockOk st (eligSorted cfg now events)

/-- One observed tick of the polling loop. -/
structure Tick where
  now : Int
  events : List Event
  lockOk : Bool
deriving DecidableEq

/-- Results of running the poller over a sequence of ticks, threading the
trigger store. -/
def pollTrace (cfg : PollCfg) : TriggerState → List Tick → List PollResult
  | _, [] => []
  | st, t :: ts =>
    let r := pollStep cfg t.now t.events t.lockOk st
    r :: pollTrace cfg r.state ts

/-- The sequence of dispatched events along a trace. -/
def dispatches (cfg : PollCfg) (st : TriggerState) (ticks : List Tick) : List Event :=
  (pollTrace cfg st ticks).filterMap (·.dispatched)

theorem mem_insertByStart {ev e : Event} : ∀ {l : List Event},
    e ∈ insertByStart ev l ↔ e = ev ∨ e ∈ l
  | [] => by simp [insertByStart]
  | x :: rest => by
    unfold insertByStart
    split
    · rw [List.mem_cons, mem_insertByStart (l := rest), List.mem_cons]
      tauto
    · simp [List.mem_cons]

theorem mem_sortByStart {e : Event} : ∀ {l : List Event}, e ∈ sortByStart l ↔ e ∈ l
  | [] => Iff.rfl
  | _ :: rest => by
    unfold sortByStart
    rw [mem_insertByStart, mem_sortByStart (l := rest), List.mem_cons]

theorem pairwise_insertByStart {ev : Event} : ∀ {l : List Event},
    List.Pairwise (fun a b => a.startT ≤ b.startT) l →
    List.Pairwise (fun a b => a.startT ≤ b.startT) (insertByStart ev l)
  | [], _ => by simp [insertByStart]
  | x :: rest, h => by
    unfold insertByStart
    rcases List.pairwise_cons.mp h with ⟨hx, hrest⟩
    split
    · rename_i hlt
      refine List.pairwise_cons.mpr ⟨?_, pairwise_insertByStart hrest⟩
      intro y hy
      rcases mem_insertByStart.mp hy with rfl | hy'
      · omega
      · exact hx y hy'
    · rename_i hge
      refine List.pairwise_cons.mpr ⟨?_, h⟩
      intro y hy
      rcases List.mem_cons.mp hy with rfl | hy'
      · omega
      · have := hx y hy'
        omega

theorem pairwise_sortByStart : ∀ (l : List Event),
    List.Pairwise (fun a b => a.startT ≤ b.startT) (sortByStart l)
  | [] => List.Pairwise.nil
  | x :: rest => pairwise_insertByStart (pairwise_sortByStart rest)

theorem head_sortByStart_min {l : List Event} {c : Event} {rest : List Event}
    (h : sortByStart l = c :: rest) : ∀ e ∈ l, c.startT ≤ e.startT := by
  intro e he
  have hmem : e ∈ c :: rest := h ▸ mem_sortByStart.mpr he
  rcases List.mem_cons.mp hmem with rfl | hm
  · omega
  · have hp := pairwise_sortByStart l
    rw [h] at hp
    exact (List.pairwise_cons.mp hp).1 e hm

theorem mem_dedupeGo {e : Event} : ∀ {seen : List (String × Int)} {l : List Event},
    e ∈ dedupeGo seen l → e ∈ l
  | _, [], h => by simp [dedupeGo] at h
  | seen, x :: rest, h => by
    unfold dedupeGo at h
    split at h
    · exact List.mem_cons_of_mem x (mem_dedupeGo h)
    · rcases List.mem_cons.mp h with rfl | h'
      · exact List.mem_cons_self _ _
      · exact List.mem_cons_of_mem x (mem_dedupeGo h')

theorem mem_dedupe {e : Event} {l : List Event} (h : e ∈ dedupe l) : e ∈ l :=
  mem_dedupeGo h

theorem eligSorted_subset {cfg : PollCfg} {now : Int} {events : List Event} {e : Event}
    (h : e ∈ eligSorted cfg now events) :
    e ∈ events ∧ eligibleEvent cfg now e = true := by
  rw [eligSorted, mem_sortByStart, List.mem_filter] at h
  exact ⟨mem_dedupe h.1, h.2⟩

theorem getKey_setKey_same : ∀ (st : TriggerState) (k : String) (v : Int),
    getKey (setKey st k v) k = some v
  | [], k, v => by simp [setKey, getKey]
  | (k', v') :: rest, k, v => by
    unfold setKey
    by_cases h : k' = k
    · rw [if_pos h]
      simp [getKey]
    · rw [if_neg h]
      unfold getKey
      rw [if_neg h]
      exact getKey_setKey_same rest k v

theorem getKey_setKey_other : ∀ (st : TriggerState) (kw : String) (vw : Int) (k : String),
    kw ≠ k → getKey (setKey st kw vw) k = getKey st k
  | [], kw, vw, k, h => by simp [setKey, getKey, h]
  | (k', v') :: rest, kw, vw, k, h => by
    unfold setKey
    by_cases h' : k' = kw
    · rw [if_pos h']
      subst h'
      unfold getKey
      rw [if_neg h, if_neg h]
    · rw [if_neg h']
      unfold getKey
      by_cases h'' : k' = k
      · rw [if_pos h'', if_pos h'']
      · rw [if_neg h'', if_neg h'']
        exact getKey_setKey_other rest kw vw k h

theorem getKey_setKey_preserve {st : TriggerState} {k : String} {v : Int}
    {kw : String} {vw : Int} (hbase : getKey st k = some v) (him : kw = k → vw = v) :
    getKey (setKey st kw vw) k = some v := by
  by_cases h : kw = k
  · subst h
    rw [getKey_setKey_same, him rfl]
  · rw [getKey_setKey_other st kw vw k h]
    exact hbase

theorem getKey_foldl_preserve {k : String} {v : Int} :
    ∀ (l : List Event) (st : TriggerState), getKey st k = some v →
    (∀ e ∈ l, e.id = k → e.startT = v) →
    getKey (l.foldl (fun m e => setKey m e.id e.startT) st) k = some v
  | [], _, hb, _ => hb
  | e :: rest, st, hb, hl => by
    rw [List.foldl_cons]
    exact getKey_foldl_preserve rest _
      (getKey_setKey_preserve hb (fun h => hl e (by simp) h))
      (fun x hx => hl x (by simp [hx]))

theorem getKey_foldl_cases {k : String} {v : Int} :
    ∀ (l : List Event) (st : TriggerState),
    getKey (l.foldl (fun m e => setKey m e.id e.startT) st) k = some v →
    getKey st k = some v ∨ ∃ e ∈ l, e.id = k ∧ e.startT = v
  | [], _, h => Or.inl h
  | e :: rest, st, h => by
    rw [List.foldl_cons] at h
    rcases getKey_foldl_cases rest _ h with h' | ⟨x, hx, hxk, hxv⟩
    · by_cases he : e.id = k
      · rw [← he, getKey_setKey_same] at h'
        exact Or.inr ⟨e, by simp, he, Option.some.inj h'⟩
      · rw [getKey_setKey_other st e.id e.startT k he] at h'
        exact Or.inl h'
    · exact Or.inr ⟨x, by simp [hx], hxk, hxv⟩

theorem pollCore_dispatched_cases {lockOk : Bool} {st : TriggerState}
    {l : List Event} {chosen : Event}
    (h : (pollCore lockOk st l).dispatched = some chosen) :
    ∃ others, l = chosen :: others ∧ lockOk = true ∧
      getKey (others.foldl (fun m e => setKey m e.id e.startT) st) chosen.id ≠
        some chosen.startT := by
  cases l with
  | nil => simp [pollCore] at h
  | cons c os =>
    by_cases h1 : getKey (os.foldl (fun m e => setKey m e.id e.startT) st) c.id
        = some c.startT
    · simp [pollCore, h1] at h
    · cases hurl : c.meetUrl with
      | none => simp [pollCore, h1, hurl] at h
      | some u =>
        by_cases h2 : lockOk = true
        · have hce : c = chosen := by simpa [pollCore, h1, hurl, h2] using h
          subst hce
          exact ⟨os, rfl, h2, h1⟩
        · simp [pollCore, h1, hurl, h2] at h

theorem pollCore_dispatched_state {lockOk : Bool} {st : TriggerState}
    {l : List Event} {chosen : Event}
    (h : (pollCore lockOk st l).dispatched = some chosen) :
    getKey (pollCore lockOk st l).state chosen.id = some chosen.startT := by
  obtain ⟨others, rfl, h2, h1⟩ := pollCore_dispatched_cases h
  cases hurl : chosen.meetUrl with
  | none => simp [pollCore, h1, hurl] at h
  | some u =>
    have hstate : (pollCore lockOk st (chosen :: others)).state =
        setKey (others.foldl (fun m e => setKey m e.id e.startT) st)
          chosen.id chosen.startT := by
      simp [pollCore, h1, hurl, h2]
    rw [hstate, getKey_setKey_same]

theorem pollCore_keys_persist {lockOk : Bool} {st : TriggerState}
    (l : List Event) {k : String} {v : Int}
    (hk : getKey st k = some v)
    (hwrites : ∀ e ∈ l, e.id = k → e.startT = v) :
    getKey (pollCore lockOk st l).state k = some v := by
  cases l with
  | nil => simpa [pollCore] using hk
  | cons c os =>
    have hfold := getKey_foldl_preserve os st hk
      (fun e he => hwrites e (List.mem_cons_of_mem c he))
    by_cases h1 : getKey (os.foldl (fun m e => setKey m e.id e.startT) st) c.id
        = some c.startT
    · simpa [pollCore, h1] using hfold
    · cases hurl : c.meetUrl with
      | none => simpa [pollCore, h1, hurl] using hfold
      | some u =>
        have hset := getKey_setKey_preserve hfold
          (fun hek => hwrites c (List.mem_cons_self c os) hek)
        by_cases h2 : lockOk = true
        · simpa [pollCore, h1, hurl, h2] using hset
        · simpa [pollCore, h1, hurl, h2] using hset

theorem pollCore_skipped_mem {lockOk : Bool} {st : TriggerState}
    {chosen : Event} {others : List Event} {e : Event} (he : e ∈ others) :
    (e.id, e.startT) ∈ (pollCore lockOk st (chosen :: others)).skipped := by
  have hmap : (e.id, e.startT) ∈ others.map fun e => (e.id, e.startT) :=
    List.mem_map.mpr ⟨e, he, rfl⟩
  by_cases h1 : getKey (others.foldl (fun m e => setKey m e.id e.startT) st) chosen.id
      = some chosen.startT
  · simpa [pollCore, h1] using hmap
  · cases hurl : chosen.meetUrl with
    | none => simpa [pollCore, h1, hurl] using hmap
    | some u =>
      by_cases h2 : lockOk = true
      · simpa [pollCore, h1, hurl, h2] using hmap
      · have hskip : (pollCore lockOk st (chosen :: others)).skipped =
            (others.map fun e => (e.id, e.startT)) ++ [(chosen.id, chosen.startT)] := by
          simp [pollCore, h1, hurl, h2]
        rw [hskip]
        exact List.mem_append_left _ hmap

theorem pollStep_dispatched_cases {cfg : PollCfg} {now : Int} {events : List Event}
    {lockOk : Bool} {st : TriggerState} {chosen : Event}
    (h : (pollStep cfg now events lockOk st).dispatched = some chosen) :
    ∃ others, eligSorted cfg now events = chosen :: others ∧ lockOk = true ∧
      getKey (others.foldl (fun m e => setKey m e.id e.startT) st) chosen.id ≠
        some chosen.startT := by
  unfold pollStep at h
  exact pollCore_dispatched_cases h

theorem pollStep_dispatched_elig {cfg : PollCfg} {now : Int} {events : List Event}
    {lockOk : Bool} {st : TriggerState} {chosen : Event}
    (h : (pollStep cfg now events lockOk st).dispatched = some chosen) :
    chosen ∈ events ∧ eligibleEvent cfg now chosen = true := by
  obtain ⟨others, helig, -, -⟩ := pollStep_dispatched_cases h
  exact eligSorted_subset (helig ▸ List.mem_cons_self chosen others)

theorem pollStep_keys_persist {cfg : PollCfg} {now : Int} {events : List Event}
    {lockOk : Bool} {st : TriggerState} (σ : String → Int)
    (hev : ∀ e ∈ events, σ e.id = e.startT) {k : String}
    (hk : getKey st k = some (σ k)) :
    getKey (pollStep cfg now events lockOk st).state k = some (σ k) := by
  unfold pollStep
  exact pollCore_keys_persist (eligSorted cfg now events) hk
    (fun e he hek => by
      rw [← hek]
      exact (hev e (eligSorted_subset he).1).symm)

theorem pollStep_dispatch_blocked {cfg : PollCfg} {now : Int} {events : List Event}
    {lockOk : Bool} {st : TriggerState} (σ : String → Int)
    (hev : ∀ e ∈ events, σ e.id = e.startT) {k : String}
    (hk : getKey st k = some (σ k)) {chosen : Event}
    (h : (pollStep cfg now events lockOk st).dispatched = some chosen) :
    chosen.id ≠ k := by
  intro hck
  obtain ⟨others, helig, -, halready⟩ := pollStep_dispatched_cases h
  apply halready
  have hos : ∀ e ∈ others, e ∈ events := fun e he =>
    (eligSorted_subset (helig ▸ List.mem_cons_of_mem chosen he)).1
  have hc : chosen ∈ events := (eligSorted_subset (helig ▸ List.mem_cons_self chosen others)).1
  have hfold : getKey (others.foldl (fun m e => setKey m e.id e.startT) st) chosen.id
      = some (σ chosen.id) := by
    rw [hck]
    exact getKey_foldl_preserve others st hk
      (fun e he hek => by rw [← hek]; exact (hev e (hos e he)).symm)
  rw [hfold, hev chosen hc]

theorem pollStep_dispatched_state {cfg : PollCfg} {now : Int} {events : List Event}
    {lockOk : Bool} {st : TriggerState} {chosen : Event}
    (h : (pollStep cfg now events lockOk st).dispatched = some chosen) :
    getKey (pollStep cfg now events lockOk st).state chosen.id = some chosen.startT := by
  unfold pollStep at h ⊢
  exact pollCore_dispatched_state h

theorem pollTrace_cons (cfg : PollCfg) (st : TriggerState) (t : Tick) (ts : List Tick) :
    pollTrace cfg st (t :: ts) =
      pollStep cfg t.now t.events t.lockOk st ::
        pollTrace cfg (pollStep cfg t.now t.events t.lockOk st).state ts := rfl

theorem dispatches_cons (cfg : PollCfg) (st : TriggerState) (t : Tick) (ts : List Tick) :
    dispatches cfg st (t :: ts) =
      (pollStep cfg t.now t.events t.lockOk st).dispatched.toList ++
        dispatches cfg (pollStep cfg t.now t.events t.lockOk st).state ts := by
  rw [dispatches, pollTrace_cons, List.filterMap_cons]
  cases hd : (pollStep cfg t.now t.events t.lockOk st).dispatched with
  | none => simp [dispatches, hd]
  | some e => simp [dispatches, hd]

theorem dispatches_aux (cfg : PollCfg) (σ : String → Int) :
    ∀ (ticks : List Tick) (st : TriggerState),
    (∀ t ∈ ticks, ∀ e ∈ t.events, σ e.id = e.startT) →
    List.Pairwise (fun a b => a.id ≠ b.id) (dispatches cfg st ticks) ∧
      (∀ k, getKey st k = some (σ k) → ∀ e ∈ dispatches cfg st ticks, e.id ≠ k)
  | [], st, _ => by
    constructor
    · exact List.Pairwise.nil
    · intro k _ e he
      simp [dispatches, pollTrace] at he
  | t :: ts, st, hσ => by
    have hev : ∀ e ∈ t.events, σ e.id = e.startT := hσ t (by simp)
    have hσ' : ∀ t' ∈ ts, ∀ e ∈ t'.events, σ e.id = e.startT :=
      fun t' ht' => hσ t' (by simp [ht'])
    obtain ⟨ih1, ih2⟩ :=
      dispatches_aux cfg σ ts (pollStep cfg t.now t.events t.lockOk st).state hσ'
    rw [dispatches_cons]
    cases hd : (pollStep cfg t.now t.events t.lockOk st).dispatched with
    | none =>
      simp only [Option.toList_none, List.nil_append]
      constructor
      · exact ih1
      · intro k hk e he
        exact ih2 k (pollStep_keys_persist σ hev hk) e he
    | some chosen =>
      simp only [Option.toList_some, List.singleton_append]
      have hcσ : σ chosen.id = chosen.startT :=
        hev chosen (pollStep_dispatched_elig hd).1
      have hcs : getKey (pollStep cfg t.now t.events t.lockOk st).state chosen.id =
          some (σ chosen.id) := by
        rw [hcσ]
        exact pollStep_dispatched_state hd
      constructor
      · refine List.pairwise_cons.mpr ⟨?_, ih1⟩
        intro e he
        exact fun hne => ih2 chosen.id hcs e he hne.symm
      · intro k hk e he
        rcases List.mem_cons.mp he with rfl | he'
        · exact pollStep_dispatch_blocked σ hev hk hd
        · exact ih2 k (pollStep_keys_persist σ hev hk) e he'

/-- The ongoing meeting used in counterexample traces. -/
def evA : Event := ⟨"a", 10, 10000, some "https://meet.google.com/aaa", false, false⟩

/-- An occurrence of a recurring event (id `"b"`, start 20). -/
def evB : Event := ⟨"b", 20, 10000, some "https://meet.google.com/bbb", false, false⟩

/-- A second occurrence of the same recurring event (id `"b"`, start 30),
simultaneously eligible with `evB` (the series' occurrences overlap). -/
def evB2 : Event := ⟨"b", 30, 10000, some "https://meet.google.com/bbb", false, false⟩

/-- C1 (counterexample): with two occurrences of the same `event_id`
simultaneously eligible at two consecutive ticks, the occurrence
`("b", 20)` is dispatched twice: at each tick the overlap-skip write for
`("b", 30)` overwrites (erases) the record of `("b", 20)` under the single
key `"b"`, so the already-triggered check fails and the supervisor is
invoked again — the store receives repeated writes and keys collide across
distinct start instants of one `event_id`. -/
theorem C1_trigger_key_collision :
    dispatches defaultPollCfg []
        [⟨29, [evB, evB2], true⟩, ⟨30, [evB, evB2], true⟩] = [evB, evB]
    ∧ ¬ List.Pairwise (fun a b => ¬(a.id = b.id ∧ a.startT = b.startT))
        (dispatches defaultPollCfg []
          [⟨29, [evB, evB2], true⟩, ⟨30, [evB, evB2], true⟩]) := by
  constructor
  · decide
  · decide

/-- C1 (amended): the Trigger State Store is keyed by `event_id` alone, so
recording a later occurrence of the same `event_id` overwrites the earlier
occurrence's record; at-most-once dispatch holds whenever each `event_id`
carries a single start instant over the trace (no overlapping occurrences
of one recurring series): along any such trace from an empty store, no
occurrence `(event_id, start_instant)` is ever dispatched twice. -/
theorem C1_at_most_once_dispatch (cfg : PollCfg) (σ : String → Int) (ticks : List Tick)
    (h : ∀ t ∈ ticks, ∀ e ∈ t.events, σ e.id = e.startT) :
    List.Pairwise (fun a b => ¬(a.id = b.id ∧ a.startT = b.startT))
      (dispatches cfg [] ticks) := by
  refine ((dispatches_aux cfg σ ticks [] h).1).imp ?_
  intro a b hne hab
  exact hne hab.1

/-- C1 witness: the amended theorem applied to a concrete one-tick trace
(one event, id `"a"` starting at 10) with `σ = fun _ => 10`. -/
theorem C1_at_most_once_dispatch_witness :
    (∀ t ∈ [Tick.mk 19 [evA] true], ∀ e ∈ t.events, (fun _ => (10 : Int)) e.id = e.startT)
    ∧ List.Pairwise (fun a b => ¬(a.id = b.id ∧ a.startT = b.startT))
        (dispatches defaultPollCfg [] [Tick.mk 19 [evA] true]) :=
  ⟨by decide,
    C1_at_most_once_dispatch defaultPollCfg (fun _ => 10) [Tick.mk 19 [evA] true] (by decide)⟩

/-- C3 (counterexample): the occurrence `("b", 20)` is overlap-skipped at
the first tick (TriggerRecord and `SKIPPED_OVERLAP_CONFLICT` result
written), yet dispatched at the second tick: the second tick's overlap-skip
write for `("b", 30)` overwrites the `"b"` key, voiding the skip record —
skipped occurrences can be retried on later polls. -/
theorem C3_skipped_occurrence_retried :
    (pollStep defaultPollCfg 19 [evA, evB] true []).skipped = [("b", 20)]
    ∧ (pollStep defaultPollCfg 19 [evA, evB] true []).dispatched = some evA
    ∧ dispatches defaultPollCfg []
        [⟨19, [evA, evB], true⟩, ⟨29, [evB, evB2], true⟩] = [evA, evB] := by
  refine ⟨by decide, by decide, by decide⟩

/-- C3 (amended): when several events are eligible at one tick the step
dispatches only an event of earliest start; every other eligible event gets
a TriggerRecord and a `SKIPPED_OVERLAP_CONFLICT` result written; and a
skipped occurrence is never dispatched on later polls as long as its
trigger record survives — which is guaranteed whenever each `event_id`
keeps a single start instant over the remaining trace (overlap-skip writes
for a *different* occurrence of the same `event_id` can overwrite the
record and void this, per the counterexample). -/
theorem C3_overlap_policy :
    (∀ (cfg : PollCfg) (now : Int) (events : List Event) (lockOk : Bool)
      (st : TriggerState) (chosen : Event),
      (pollStep cfg now events lockOk st).dispatched = some chosen →
      ∀ e ∈ (dedupe events).filter (eligibleEvent cfg now), chosen.startT ≤ e.startT)
    ∧ (∀ (cfg : PollCfg) (now : Int) (events : List Event) (lockOk : Bool)
        (st : TriggerState) (chosen : Event) (others : List Event),
        eligSorted cfg now events = chosen :: others →
        ∀ e ∈ others, (e.id, e.startT) ∈ (pollStep cfg now events lockOk st).skipped)
    ∧ (∀ (cfg : PollCfg) (σ : String → Int) (ticks : List Tick) (st : TriggerState)
        (k : String),
        (∀ t ∈ ticks, ∀ e ∈ t.events, σ e.id = e.startT) →
        getKey st k = some (σ k) →
        ∀ e ∈ dispatches cfg st ticks, e.id ≠ k) := by
  refine ⟨?_, ?_, ?_⟩
  · intro cfg now events lockOk st chosen h e he
    obtain ⟨others, helig, -, -⟩ := pollStep_dispatched_cases h
    exact head_sortByStart_min helig e he
  · intro cfg now events lockOk st chosen others helig e he
    unfold pollStep
    rw [helig]
    exact pollCore_skipped_mem he
  · intro cfg σ ticks st k hσ hk e he
    exact (dispatches_aux cfg σ ticks st hσ).2 k hk e he

/-- C3 witness: the amended theorem applied at a concrete tick (earliest
event `evA` dispatched, `evB` skipped) and a concrete blocked trace. -/
theorem C3_overlap_policy_witness :
    ((pollStep defaultPollCfg 19 [evA, evB] true []).dispatched = some evA
      ∧ (∀ e ∈ (dedupe [evA, evB]).filter (eligibleEvent defaultPollCfg 19),
          evA.startT ≤ e.startT))
    ∧ (eligSorted defaultPollCfg 19 [evA, evB] = [evA, evB]
      ∧ (evB.id, evB.startT) ∈ (pollStep defaultPollCfg 19 [evA, evB] true []).skipped)
    ∧ ((∀ t ∈ [Tick.mk 29 [evB] true], ∀ e ∈ t.events, (fun _ => (20 : Int)) e.id = e.startT)
      ∧ getKey [("b", 20)] "b" = some 20
      ∧ ∀ e ∈ dispatches defaultPollCfg [("b", 20)] [Tick.mk 29 [evB] true], e.id ≠ "b") := by
  refine ⟨⟨by decide, ?_⟩, ⟨by decide, ?_⟩, by decide, by decide, ?_⟩
  · exact C3_overlap_policy.1 defaultPollCfg 19 [evA, evB] true [] evA (by decide)
  · exact C3_overlap_policy.2.1 defaultPollCfg 19 [evA, evB] true [] evA [evB] (by decide)
      evB (by decide)
  · exact C3_overlap_policy.2.2 defaultPollCfg (fun _ => 20) [Tick.mk 29 [evB] true]
      [("b", 20)] "b" (by decide) (by decide)

/-- C5 (counterexample): the occurrence `("b", 20)` is already in the
Trigger State Store at the start of the tick, yet it is dispatched: the
overlap-skip write for the simultaneously eligible occurrence `("b", 30)`
overwrites the `"b"` key before the already-triggered check runs. -/
theorem C5_in_store_still_dispatched :
    getKey [("b", 20)] evB.id = some evB.startT
    ∧ (pollStep defaultPollCfg 29 [evB, evB2] true [("b", 20)]).dispatched = some evB := by
  constructor
  · decide
  · decide

/-- C5 (amended): in supervised mode an event is eligible exactly when it
has a supported (`meet.google.com`) URL, is not cancelled, not all-day, not
ended, and either is in progress or `now ∈ [start − 2 min, start + 15 min]`;
every dispatched event is one of the tick's events and eligible (so
cancelled, all-day, ended or unsupported-URL events are never dispatched);
and an occurrence already in the TriggerRecord store is not dispatched
provided no other eligible event of the tick shares its `event_id` with a
different start (the store check runs after the overlap-skip writes of the
same tick, per the counterexample). -/
theorem C5_classification :
    (∀ (b a now : Int) (ev : Event),
      eligibleEvent ⟨true, b, a⟩ now ev = true ↔
        ((∃ u, ev.meetUrl = some u ∧ supportedUrl u = true)
          ∧ ev.isCancelled = false ∧ ev.isAllDay = false ∧ now < ev.endT
          ∧ ((ev.startT ≤ now ∧ now < ev.endT)
              ∨ (ev.startT - 120 ≤ now ∧ now ≤ ev.startT + 900))))
    ∧ (∀ (cfg : PollCfg) (now : Int) (events : List Event) (lockOk : Bool)
        (st : TriggerState) (ev : Event),
        (pollStep cfg now events lockOk st).dispatched = some ev →
        ev ∈ events ∧ eligibleEvent cfg now ev = true)
    ∧ (∀ (cfg : PollCfg) (now : Int) (events : List Event) (lockOk : Bool)
        (st : TriggerState) (ev : Event),
        getKey st ev.id = some ev.startT →
        (∀ e ∈ events, eligibleEvent cfg now e = true → e.id = ev.id →
          e.startT = ev.startT) →
        (pollStep cfg now events lockOk st).dispatched ≠ some ev) := by
  refine ⟨?_, ?_, ?_⟩
  · intro b a now ev
    cases hurl : ev.meetUrl with
    | none => simp [eligibleEvent, hurl]
    | some u =>
      simp only [eligibleEvent, hurl, Bool.and_eq_true, Bool.or_eq_true,
        decide_eq_true_eq, Bool.not_eq_true', eq_self_iff_true, if_true]
      constructor
      · rintro ⟨⟨⟨⟨hsup, hcan⟩, hall⟩, hend⟩, hwin⟩
        refine ⟨⟨u, rfl, hsup⟩, hcan, hall, hend, ?_⟩
        tauto
      · rintro ⟨⟨u', hu', hsup⟩, hcan, hall, hend, hwin⟩
        cases Option.some.inj hu'
        refine ⟨⟨⟨⟨hsup, hcan⟩, hall⟩, hend⟩, ?_⟩
        tauto
  · intro cfg now events lockOk st ev h
    exact pollStep_dispatched_elig h
  · intro cfg now events lockOk st ev hst huniq h
    obtain ⟨others, helig, -, halready⟩ := pollStep_dispatched_cases h
    apply halready
    refine getKey_foldl_preserve others st hst (fun e he hek => ?_)
    have hsub := eligSorted_subset (helig ▸ List.mem_cons_of_mem ev he)
    exact huniq e hsub.1 hsub.2 hek

/-- C5 witness: the amended theorem applied at a concrete eligible event,
a concrete dispatch, and a concrete blocked single-occurrence tick. -/
theorem C5_classification_witness :
    (eligibleEvent ⟨true, 2, 10⟩ 19 evB = true
      ∧ ((∃ u, evB.meetUrl = some u ∧ supportedUrl u = true)
          ∧ evB.isCancelled = false ∧ evB.isAllDay = false ∧ (19 : Int) < evB.endT
          ∧ ((evB.startT ≤ 19 ∧ (19 : Int) < evB.endT)
              ∨ (evB.startT - 120 ≤ 19 ∧ (19 : Int) ≤ evB.startT + 900))))
    ∧ ((pollStep defaultPollCfg 19 [evA, evB] true []).dispatched = some evA
      ∧ evA ∈ [evA, evB] ∧ eligibleEvent defaultPollCfg 19 evA = true)
    ∧ (getKey [("b", 20)] evB.id = some evB.startT
      ∧ (∀ e ∈ [evB], eligibleEvent defaultPollCfg 29 e = true → e.id = evB.id →
          e.startT = evB.startT)
      ∧ (pollStep defaultPollCfg 29 [evB] true [("b", 20)]).dispatched ≠ some evB) := by
  refine ⟨⟨by decide, ?_⟩, ⟨by decide, ?_⟩, by decide, by decide, ?_⟩
  · exact (C5_classification.1 2 10 19 evB).mp (by decide)
  · exact C5_classification.2.1 defaultPollCfg 19 [evA, evB] true [] evA (by decide)
  · exact C5_classification.2.2 defaultPollCfg 29 [evB] true [("b", 20)] evB
      (by decide) (by decide)

end Calendar

/-! ## Notetaker supervisor — `src/smartmeetos/notetaker/supervisor.py`

`supervise_meeting` is modelled by two pure step functions over observed
inputs: `outerCheck` is the head of the create-attempt loop (the `while`
guard and the checks at lines 477–510), and `innerStep` is one iteration of
the observe-and-react polling loop (lines 588–871). Wall-clock reads within
one iteration are a single `now`; a history-fetch failure is `fetch = none`;
`media_available` is whether `get_notetaker_media_links` yielded a
transcript or recording URL (false when the call fails or no notetaker id
exists); `dry_run` is false. -/

namespace Supervisor

/-- `FailureCode` of `src/smartmeetos/notetaker/failure_codes.py`. -/
inductive FailureCode where
  | JOIN_TIMEOUT
  | WAITING_ROOM_TIMEOUT
  | DISCONNECTED_TIMEOUT
  | BOT_REMOVED
  | MAX_DURATION_EXCEEDED
  | JOIN_REFUSED_MAX
  | KICKED_MAX
  | SKIPPED_OVERLAP_CONFLICT
  | NYLAS_CREATE_FAILED
  | NYLAS_STATUS_FAILED
deriving DecidableEq

/-- `_lower(s) = (s or "").strip().lower()`. -/
def lowerOpt (s : Option String) : String :=
  ⟨(Grouping.pyStrip (s.getD "").toList).map Grouping.pyToLower⟩

/-- Python `sub in s` over `String`. -/
def strContains (sub s : String) : Bool :=
  Calendar.containsChars sub.toList s.toList

/-- Python `s.endswith(suffix)`. -/
def strEndsWith (suffix s : String) : Bool :=
  suffix.toList.isSuffixOf s.toList

/-- `_is_waiting_room`. -/
def is_waiting_room (ms : Option String) : Bool :=
  lowerOpt ms = "waiting_for_entry" || strContains "waiting" (lowerOpt ms)

/-- `_is_active_recording`. -/
def is_active_recording (ms : Option String) : Bool :=
  lowerOpt ms = "recording_active"

/-- `_is_failed_entry`. -/
def is_failed_entry (ms : Option String) : Bool :=
  lowerOpt ms = "failed_entry" || lowerOpt ms = "entry_denied" ||
    lowerOpt ms = "no_response"

/-- `_is_removed`. -/
def is_removed (event_type ms st : Option String) : Bool :=
  strContains "removed" (lowerOpt event_type) || strContains "kicked" (lowerOpt event_type) ||
    strContains "removed" (lowerOpt ms) || strContains "kicked" (lowerOpt ms) ||
    lowerOpt ms = "bot_removed" || lowerOpt st = "removed"

/-- `_looks_ended`. -/
def looks_ended (ms : Option String) : Bool :=
  lowerOpt ms = "meeting_ended" || lowerOpt ms = "recording_ended" ||
    lowerOpt ms = "ended" || lowerOpt ms = "completed" ||
    strEndsWith "_ended" (lowerOpt ms)

/-- `_looks_disconnected`. -/
def looks_disconnected (ms : Option String) : Bool :=
  lowerOpt ms = "disconnected" || lowerOpt ms = "connection_lost" ||
    strContains "disconnect" (lowerOpt ms)

/-- The `SupervisorConfig` fields the step functions consult. -/
structure SupervisorConfig where
  max_entry_denials : Nat
  max_kicks : Nat
deriving DecidableEq

/-- The default configuration (`max_entry_denials = 3`, `max_kicks = 3`). -/
def defaultSupCfg : SupervisorConfig := ⟨3, 3⟩

/-- Decision of the create-attempt loop's head (in the source order:
`while` guard against `attempt_deadline = max_end_time`, then max-duration,
end-grace, denial cap, kick cap; otherwise a create attempt follows).
`deadlineExceededSuccess` and `graceSuccess` finalize with `ok=true`;
`maxDurationExceeded`, `joinRefusedMax` and `kickedMax` finalize with the
corresponding failure codes. -/
inductive OuterDecision where
  | deadlineExceededSuccess
  | maxDurationExceeded
  | graceSuccess
  | joinRefusedMax
  | kickedMax
  | proceedCreate
deriving DecidableEq

/-- The head of the outer loop (lines 477–510; `attempt_deadline` equals
`max_end_time`, so the `maxDurationExceeded` branch is kept for fidelity
though a single-`now` iteration cannot reach it). -/
def outerCheck (max_end_time end_grace_time : Int) (cfg : SupervisorConfig)
    (now : Int) (denied_count kicked_count : Nat) : OuterDecision :=
  if ¬(now ≤ max_end_time) then OuterDecision.deadlineExceededSuccess
  else if now > max_end_time then OuterDecision.maxDurationExceeded
  else if now ≥ end_grace_time then OuterDecision.graceSuccess
  else if denied_count ≥ cfg.max_entry_denials then OuterDecision.joinRefusedMax
  else if kicked_count ≥ cfg.max_kicks then OuterDecision.kickedMax
  else OuterDecision.proceedCreate

/-- One poll's observation: the latest history status and whether media is
available. -/
structure Obs where
  meeting_state : Option String
  event_type : Option String
  state : Option String
  media_available : Bool
deriving DecidableEq

/-- Mutable state of the inner loop. -/
structure InnerState where
  denied_count : Nat
  kicked_count : Nat
  had_recording : Bool
  disconnect_start : Option Int
deriving DecidableEq

/-- What one inner-loop iteration does next: finalize the run, break to the
outer loop to create a fresh notetaker, keep polling, or attempt a rejoin
(sleep `reconnect_attempt_interval_seconds`, create a new notetaker,
continue polling). -/
inductive InnerAction where
  | terminal (ok : Bool) (code : Option FailureCode)
  | breakToOuter
  | continuePoll
  | reconnectAttempt
deriving DecidableEq

/-- `end_signals` (lines 698–701). -/
def end_signals (api_reports_ended grace_exceeded media_available : Bool) : Nat :=
  (if api_reports_ended then 1 else 0) + (if grace_exceeded then 1 else 0) +
    (if media_available then 1 else 0)

/-- One iteration of the inner polling loop (lines 588–871), in source
order: max-duration guard; history fetch (`none` = transient failure, keep
polling); removed/kicked; `recording_active`; end-signal scoring;
reconnect-after-recording (with the rejoin-denial cap); waiting room;
initial-join entry failure; otherwise keep polling. -/
def innerStep (cfg : SupervisorConfig)
    (max_end_time end_grace_time waiting_room_deadline : Int)
    (now : Int) (fetch : Option Obs) (s : InnerState) : InnerAction × InnerState :=
  if now > max_end_time then
    (InnerAction.terminal false (some FailureCode.MAX_DURATION_EXCEEDED), s)
  else
    match fetch with
    | none => (InnerAction.continuePoll, s)
    | some o =>
      let ms := o.meeting_state
      let signals := end_signals (looks_ended ms) (decide (now ≥ end_grace_time))
        o.media_available
      if is_removed o.event_type ms o.state then
        (InnerAction.breakToOuter, { s with kicked_count := s.kicked_count + 1 })
      else if is_active_recording ms then
        (InnerAction.continuePoll, { s with had_recording := true, disconnect_start := none })
      else if signals ≥ 2 then
        (InnerAction.terminal true none, s)
      else if s.had_recording && (looks_disconnected ms || is_failed_entry ms ||
          (s.disconnect_start.isSome && is_waiting_room ms)) then
        if lowerOpt ms = "entry_denied" then
          if s.denied_count + 1 ≥ cfg.max_entry_denials then
            (InnerAction.terminal false (some FailureCode.JOIN_REFUSED_MAX),
              { s with denied_count := s.denied_count + 1 })
          else
            (InnerAction.reconnectAttempt,
              { s with
                denied_count := s.denied_count + 1
                disconnect_start := some (s.disconnect_start.getD now) })
        else
          (InnerAction.reconnectAttempt,
            { s with disconnect_start := some (s.disconnect_start.getD now) })
      else if is_waiting_room ms then
        if now ≥ waiting_room_deadline then
          (InnerAction.breakToOuter, { s with denied_count := s.denied_count + 1 })
        else (InnerAction.continuePoll, s)
      else if is_failed_entry ms && !s.had_recording then
        if lowerOpt ms = "entry_denied" then
          (InnerAction.breakToOuter, { s with denied_count := s.denied_count + 1 })
        else (InnerAction.breakToOuter, s)
      else (InnerAction.continuePoll, s)

/-- A poll with state `recording_active`, benign event type/state, and
media available. -/
def recordingObs : Obs :=
  ⟨some "recording_active", some "notetaker_update", some "media_processing", true⟩

/-- C2 (counterexample): at a poll with state `recording_active`, past the
end-grace instant and with media available, two end signals are present yet
the inner loop continues polling instead of terminating — the
`recording_active` branch runs before the end-signal scoring, so the claim
fails exactly on polls where the state is `recording_active`. -/
theorem C2_recording_active_not_scored :
    end_signals (looks_ended recordingObs.meeting_state) (decide ((1000 : Int) ≥ 900))
        recordingObs.media_available = 2
    ∧ (innerStep defaultSupCfg 1800 900 600 1000 (some recordingObs)
        ⟨0, 0, false, none⟩).1 = InnerAction.continuePoll := by
  constructor
  · decide
  · decide

/-- C2 (amended): end-signal scoring applies only when the poll's state is
neither removed/kicked nor `recording_active`: at such polls ≥ 2 signals
terminate the run as a success; a `recording_active` poll continues polling
regardless of the signal count; and no inner-loop iteration ever
terminates with `ok=true` unless ≥ 2 signals are present (with ≤ 1 signal
the iteration can only continue, break to the outer loop, or terminate
with a failure code). -/
theorem C2_end_signal_scoring :
    (∀ (cfg : SupervisorConfig) (maxEnd grace wrd now : Int) (o : Obs) (s : InnerState),
      ¬(now > maxEnd) →
      is_removed o.event_type o.meeting_state o.state = false →
      is_active_recording o.meeting_state = false →
      end_signals (looks_ended o.meeting_state) (decide (now ≥ grace)) o.media_available ≥ 2 →
      (innerStep cfg maxEnd grace wrd now (some o) s).1 = InnerAction.terminal true none)
    ∧ (∀ (cfg : SupervisorConfig) (maxEnd grace wrd now : Int) (o : Obs) (s : InnerState),
        ¬(now > maxEnd) →
        is_removed o.event_type o.meeting_state o.state = false →
        is_active_recording o.meeting_state = true →
        (innerStep cfg maxEnd grace wrd now (some o) s).1 = InnerAction.continuePoll)
    ∧ (∀ (cfg : SupervisorConfig) (maxEnd grace wrd now : Int) (fetch : Option Obs)
        (s : InnerState) (code : Option FailureCode),
        (innerStep cfg maxEnd grace wrd now fetch s).1 = InnerAction.terminal true code →
        ∃ o, fetch = some o ∧
          end_signals (looks_ended o.meeting_state) (decide (now ≥ grace))
            o.media_available ≥ 2) := by
  refine ⟨?_, ?_, ?_⟩
  · intro cfg maxEnd grace wrd now o s h1 h2 h3 h4
    unfold innerStep
    rw [if_neg h1]
    dsimp only
    rw [h2, h3]
    simp only [Bool.false_eq_true, if_false]
    rw [if_pos h4]
  · intro cfg maxEnd grace wrd now o s h1 h2 h3
    unfold innerStep
    rw [if_neg h1]
    dsimp only
    rw [h2, h3]
    simp only [Bool.false_eq_true, if_false, if_true]
  · intro cfg maxEnd grace wrd now fetch s code h
    unfold innerStep at h
    split at h
    · simp at h
    · cases fetch with
      | none => simp at h
      | some o =>
        dsimp only at h
        refine ⟨o, rfl, ?_⟩
        split at h
        · simp at h
        · split at h
          · simp at h
          · split at h
            · assumption
            · split at h
              · split at h
                · split at h
                  · simp at h
                  · simp at h
                · simp at h
              · split at h
                · split at h
                  · simp at h
                  · simp at h
                · split at h
                  · split at h
                    · simp at h
                    · simp at h
                  · simp at h

/-- C2 witness: the amended theorem applied to a concrete 2-signal
non-recording poll (state `meeting_ended`, media available), a concrete
`recording_active` poll, and the converse at the same 2-signal poll. -/
theorem C2_end_signal_scoring_witness :
    ((innerStep defaultSupCfg 1800 2000 600 1000
        (some ⟨some "meeting_ended", some "notetaker_update", some "media_processing", true⟩)
        ⟨0, 0, false, none⟩).1 = InnerAction.terminal true none)
    ∧ ((innerStep defaultSupCfg 1800 900 600 1500 (some recordingObs)
        ⟨1, 1, true, none⟩).1 = InnerAction.continuePoll)
    ∧ (∃ o, (some ⟨some "meeting_ended", some "notetaker_update", some "media_processing",
          true⟩ : Option Obs) = some o ∧
        end_signals (looks_ended o.meeting_state) (decide ((1000 : Int) ≥ 2000))
          o.media_available ≥ 2) := by
  refine ⟨?_, ?_, ?_⟩
  · exact C2_end_signal_scoring.1 defaultSupCfg 1800 2000 600 1000
      ⟨some "meeting_ended", some "notetaker_update", some "media_processing", true⟩
      ⟨0, 0, false, none⟩ (by decide) (by decide) (by decide) (by decide)
  · exact C2_end_signal_scoring.2.1 defaultSupCfg 1800 900 600 1500 recordingObs
      ⟨1, 1, true, none⟩ (by decide) (by decide) (by decide)
  · exact C2_end_signal_scoring.2.2 defaultSupCfg 1800 2000 600 1000 _
      ⟨0, 0, false, none⟩ none (by decide)

/-- C4 (counterexample): with `denied_count = 3` (the cap) but the poll
instant already past the end-grace time, the outer-loop check terminates
the run as a grace success (`ok=true`), not with `JOIN_REFUSED_MAX` — the
max-duration and end-grace checks run before the denial cap. -/
theorem C4_grace_preempts_denial_cap :
    outerCheck 1800 900 defaultSupCfg 1000 3 0 = OuterDecision.graceSuccess
    ∧ OuterDecision.graceSuccess ≠ OuterDecision.joinRefusedMax := by
  constructor
  · decide
  · decide

/-- C4 (amended): when `denied_count` reaches `max_entry_denials`
(default 3) the outer-loop check terminates with `JOIN_REFUSED_MAX`
provided the run is not already past the attempt deadline, max duration or
end-grace instant (those checks run first and finalize with their own
outcomes); during a reconnect after observed recording, an `entry_denied`
poll that brings the count to the cap terminates immediately with
`JOIN_REFUSED_MAX`; and with `denied_count = 2` of 3 the outer check
proceeds to a further create attempt rather than giving up. -/
theorem C4_denial_cap :
    (∀ (maxEnd grace : Int) (cfg : SupervisorConfig) (now : Int) (denied kicked : Nat),
      now ≤ maxEnd → now < grace → denied ≥ cfg.max_entry_denials →
      outerCheck maxEnd grace cfg now denied kicked = OuterDecision.joinRefusedMax)
    ∧ (∀ (cfg : SupervisorConfig) (maxEnd grace wrd now : Int) (o : Obs) (s : InnerState),
        ¬(now > maxEnd) →
        is_removed o.event_type o.meeting_state o.state = false →
        lowerOpt o.meeting_state = "entry_denied" →
        end_signals (looks_ended o.meeting_state) (decide (now ≥ grace))
          o.media_available ≤ 1 →
        s.had_recording = true →
        s.denied_count + 1 ≥ cfg.max_entry_denials →
        (innerStep cfg maxEnd grace wrd now (some o) s).1 =
          InnerAction.terminal false (some FailureCode.JOIN_REFUSED_MAX))
    ∧ (∀ (maxEnd grace : Int) (now : Int) (kicked : Nat),
        now ≤ maxEnd → now < grace → kicked < 3 →
        outerCheck maxEnd grace defaultSupCfg now 2 kicked = OuterDecision.proceedCreate) := by
  refine ⟨?_, ?_, ?_⟩
  · intro maxEnd grace cfg now denied kicked h1 h2 h3
    unfold outerCheck
    rw [if_neg (by omega), if_neg (by omega), if_neg (by omega), if_pos h3]
  · intro cfg maxEnd grace wrd now o s h1 h2 hms hsig hrec hcap
    have hnotrec : is_active_recording o.meeting_state = false := by
      unfold is_active_recording
      rw [hms]
      decide
    have hfailed : is_failed_entry o.meeting_state = true := by
      unfold is_failed_entry
      rw [hms]
      decide
    unfold innerStep
    rw [if_neg h1]
    dsimp only
    rw [h2, hnotrec]
    simp only [Bool.false_eq_true, if_false]
    rw [if_neg (by omega), if_pos (by rw [hrec, hfailed]; simp), if_pos hms, if_pos hcap]
  · intro maxEnd grace now kicked h1 h2 h3
    unfold outerCheck
    rw [if_neg (by omega), if_neg (by omega), if_neg (by omega),
      if_neg (by simp [defaultSupCfg]), if_neg (by simp [defaultSupCfg]; omega)]

/-- C4 witness: the amended theorem applied at concrete instants — the cap
firing in the outer check and in a reconnect denial, and the 2-of-3 case
proceeding to another create attempt. -/
theorem C4_denial_cap_witness :
    outerCheck 1800 900 defaultSupCfg 100 3 0 = OuterDecision.joinRefusedMax
    ∧ (innerStep defaultSupCfg 1800 2000 600 1000
        (some ⟨some "entry_denied", some "notetaker_update", some "x", false⟩)
        ⟨2, 0, true, none⟩).1 =
      InnerAction.terminal false (some FailureCode.JOIN_REFUSED_MAX)
    ∧ outerCheck 1800 900 defaultSupCfg 100 2 0 = OuterDecision.proceedCreate := by
  refine ⟨?_, ?_, ?_⟩
  · exact C4_denial_cap.1 1800 900 defaultSupCfg 100 3 0 (by decide) (by decide) (by decide)
  · exact C4_denial_cap.2.1 defaultSupCfg 1800 2000 600 1000
      ⟨some "entry_denied", some "notetaker_update", some "x", false⟩
      ⟨2, 0, true, none⟩ (by decide) (by decide) (by decide) (by decide) (by decide) (by decide)
  · exact C4_denial_cap.2.2 1800 900 100 0 (by decide) (by decide) (by decide)

end Supervisor

/-! ## Transcript merger — `src/smartmeetos/notetaker/transcript_merge.py`

The transcripts directory is a list of files, each with a name, an
`st_ctime`, and its bytes. Bytes are modelled post-parse: a
`FileData.jsonFile p` stands for bytes that `json.loads` decodes to `p`
(both fragments and the merged JSON output, whose serialization
`json.dumps(indent=2, sort_keys=True)` is a deterministic, injective
rendering — byte-identity of JSON files is equality of their payloads);
a `FileData.textFile s` stands for plain text bytes `s` (the merged `.txt`
output; `_parse_transcript_payload` on such bytes yields the raw string).
Python float timestamps are rationals (`0.0001` is exact here; the float
rounding of the marker offset never changes a comparison in these
theorems). -/

namespace Merge

/-- Contents of one file in the transcripts directory. -/
inductive FileData where
  | jsonFile (payload : Json)
  | textFile (content : String)

/-- One file of the transcripts directory. -/
structure FsFile where
  name : String
  ctime : Int
  data : FileData

/-- The transcripts directory (listing order is the `iterdir` order). -/
abbrev Fs := List FsFile

/-- Atomic write (write-to-temp-then-rename collapses to replace-or-append;
an overwrite keeps the file's position in the listing). -/
def fsWrite (name : String) (ctime : Int) (data : FileData) : Fs → Fs
  | [] => [⟨name, ctime, data⟩]
  | f :: rest =>
    if f.name = name then ⟨name, ctime, data⟩ :: rest
    else f :: fsWrite name ctime data rest

/-- `path.exists()` within the directory. -/
def fsHas (fs : Fs) (name : String) : Bool := fs.any (·.name = name)

/-- `_safe_event_start_token`: `event_start.replace(":", "-")`. -/
def safeToken (event_start : String) : String :=
  ⟨event_start.toList.map (fun c => if c = ':' then '-' else c)⟩

/-- Python `s.startswith(p)`. -/
def strStartsWith (p s : String) : Bool := p.toList.isPrefixOf s.toList

/-- A normalized transcript entry (`NormalizedEntry` dataclass). -/
structure NormalizedEntry where
  speaker : Option String
  text : String
  timestamp : Option ℚ
  notetaker_id : String
  segment_index : Int
deriving DecidableEq

/-- `_coerce_timestamp`: numbers (including booleans, which Python treats
as ints) become floats, everything else `None`. -/
def coerceTimestamp : Option Json → Option ℚ
  | some (Json.num n) => some n
  | some (Json.bool b) => some (if b then 1 else 0)
  | _ => none

/-- A chain `a or b or c` of Python `or`s over `dict.get` results: the
first truthy value, or the last operand when none is truthy. -/
def pyOrChain : List (Option Json) → Option Json
  | [] => none
  | [x] => x
  | x :: rest =>
    match x with
    | some v => if Extractor.pyTruthy v then some v else pyOrChain rest
    | none => pyOrChain rest

/-- The speaker field of a segment dict: a nonblank string, stripped;
otherwise `None`. -/
def speakerOf (fields : List (String × Json)) : Option String :=
  match jsonGet fields "speaker" with
  | some (Json.str sp) =>
    if Extractor.pyStripString sp = "" then none else some (Extractor.pyStripString sp)
  | _ => none

/-- The `speaker_labelled` transcript body: one entry per dict item with a
nonblank `text`, `seg` incremented only on append. -/
def speakerLabelledEntries (nid : String) : List Json → Int → List NormalizedEntry
  | [], _ => []
  | item :: rest, seg =>
    match item with
    | Json.obj fields =>
      match jsonGet fields "text" with
      | some (Json.str t) =>
        if Extractor.pyStripString t = "" then speakerLabelledEntries nid rest seg
        else
          ⟨speakerOf fields, Extractor.pyStripString t,
            coerceTimestamp (jsonGet fields "start"), nid, seg⟩ ::
            speakerLabelledEntries nid rest (seg + 1)
      | _ => speakerLabelledEntries nid rest seg
    | _ => speakerLabelledEntries nid rest seg

/-- A list-of-segments payload: dict items with nonblank `text` (timestamp
from `start_time or timestamp or start`) or nonblank string items. -/
def listEntries (nid : String) : List Json → Int → List NormalizedEntry
  | [], _ => []
  | item :: rest, seg =>
    match item with
    | Json.obj fields =>
      match jsonGet fields "text" with
      | some (Json.str t) =>
        if Extractor.pyStripString t = "" then listEntries nid rest seg
        else
          ⟨speakerOf fields, Extractor.pyStripString t,
            coerceTimestamp (pyOrChain [jsonGet fields "start_time",
              jsonGet fields "timestamp", jsonGet fields "start"]), nid, seg⟩ ::
            listEntries nid rest (seg + 1)
      | _ => listEntries nid rest seg
    | Json.str txt =>
      if Extractor.pyStripString txt = "" then listEntries nid rest seg
      else ⟨none, Extractor.pyStripString txt, none, nid, seg⟩ :: listEntries nid rest (seg + 1)
    | _ => listEntries nid rest seg

/-- The dict fallback: the dict itself looks like a segment. -/
def dictSegmentEntries (nid : String) (fields : List (String × Json)) : List NormalizedEntry :=
  match jsonGet fields "text" with
  | some (Json.str t) =>
    if Extractor.pyStripString t = "" then []
    else
      [⟨speakerOf fields, Extractor.pyStripString t,
        coerceTimestamp (pyOrChain [jsonGet fields "start_time",
          jsonGet fields "timestamp", jsonGet fields "start"]), nid, 0⟩]
  | _ => []

/-- `_normalize_from_object` with `segment_index_start = 0` (its only call
site). -/
def normalizeFromObject (nid : String) (obj : Json) : List NormalizedEntry :=
  match obj with
  | Json.obj fields =>
    match jsonGet fields "type", jsonGet fields "transcript" with
    | some (Json.str "speaker_labelled"), some (Json.arr body) =>
      speakerLabelledEntries nid body 0
    | some (Json.str "raw"), some (Json.str body) =>
      if Extractor.pyStripString body = "" then dictSegmentEntries nid fields
      else [⟨none, Extractor.pyStripString body, none, nid, 0⟩]
    | _, _ => dictSegmentEntries nid fields
  | Json.arr items => listEntries nid items 0
  | Json.str s =>
    if Extractor.pyStripString s = "" then []
    else [⟨none, Extractor.pyStripString s, none, nid, 0⟩]
  | _ => []

/-- `_FILENAME_RE` — note the doubled backslashes in the source's raw
string (`\\.transcript\\.json`): the pattern demands a literal backslash
before each of those dots, so realistic fragment names never match and
`normalize_transcript_file` falls back to `notetaker_id = "unknown"`.
Returns the `notetaker_id` group on a match. -/
def filenameReNotetaker (name : String) : Option String :=
  let cs := name.toList
  let g1 := cs.takeWhile (· ≠ '_')
  if g1.isEmpty then none
  else
    match cs.dropWhile (· ≠ '_') with
    | '_' :: '_' :: r2 =>
      let g2 := r2.takeWhile (· ≠ '_')
      if g2.isEmpty then none
      else
        match r2.dropWhile (· ≠ '_') with
        | '_' :: '_' :: r4 =>
          match r4.reverse with
          | 'n' :: 'o' :: 's' :: 'j' :: _ :: '\\' :: 't' :: 'p' :: 'i' :: 'r' :: 'c' ::
              's' :: 'n' :: 'a' :: 'r' :: 't' :: _ :: '\\' :: g3rev =>
            if g3rev.isEmpty then none
            else if g3rev.all (· ≠ '.') then some ⟨g3rev.reverse⟩ else none
          | _ => none
        | _ => none
    | _ => none

/-- `_parse_transcript_payload` over file bytes: JSON bytes decode to their
payload, text bytes fall back to the raw string. -/
def readPayload : FileData → Json
  | FileData.jsonFile p => p
  | FileData.textFile s => Json.str s

/-- `normalize_transcript_file`. -/
def normalize_transcript_file (f : FsFile) : List NormalizedEntry :=
  normalizeFromObject ((filenameReNotetaker f.name).getD "unknown") (readPayload f.data)

/-- The fragment-name filter of `list_transcript_files`. -/
def isFragmentName (event_id event_start : String) (name : String) : Bool :=
  strStartsWith (event_id ++ "__" ++ safeToken event_start ++ "__") name &&
    Supervisor.strEndsWith ".transcript.json" name &&
    !Supervisor.strContains "__MERGED." name

/-- Python string `<` (lexicographic by code point), on character lists. -/
def charsLt : List Char → List Char → Bool
  | [], [] => false
  | [], _ :: _ => true
  | _ :: _, [] => false
  | a :: as, b :: bs =>
    if a.toNat < b.toNat then true
    else if b.toNat < a.toNat then false
    else charsLt as bs

/-- The file sort key `(ctime, name)`, strictly. -/
def fileKeyLt (a b : FsFile) : Bool :=
  a.ctime < b.ctime || (a.ctime = b.ctime && charsLt a.name.toList b.name.toList)

/-- Stable insertion by `(ctime, name)`. -/
def insertFile (f : FsFile) : List FsFile → List FsFile
  | [] => [f]
  | g :: rest => if fileKeyLt g f then g :: insertFile f rest else f :: g :: rest

/-- Stable sort by `(ctime, name)` — the semantics of Python's
`list.sort(key=lambda x: (ctime(x), x.name))`. -/
def sortFiles : List FsFile → List FsFile
  | [] => []
  | f :: rest => insertFile f (sortFiles rest)

/-- `list_transcript_files`. -/
def list_transcript_files (fs : Fs) (event_id event_start : String) : List FsFile :=
  sortFiles (fs.filter (fun f => isFragmentName event_id event_start f.name))

/-- Per-file entries with globally unique segment indexes
(`file_index * 1_000_000 + segment_index`), in file order. -/
def globalize (files : List FsFile) : List NormalizedEntry :=
  (files.enum.map (fun p =>
    (normalize_transcript_file p.2).map
      (fun e => { e with segment_index := (p.1 : Int) * 1000000 + e.segment_index }))).flatten

/-- The entry sort key
`(has_ts, ts or 0.0, segment_index, notetaker_id)`, strictly. -/
def entryKeyLt (a b : NormalizedEntry) : Bool :=
  let ha : Nat := if a.timestamp.isSome then 0 else 1
  let hb : Nat := if b.timestamp.isSome then 0 else 1
  let ta : ℚ := a.timestamp.getD 0
  let tb : ℚ := b.timestamp.getD 0
  if ha < hb then true
  else if hb < ha then false
  else if ta < tb then true
  else if tb < ta then false
  else if a.segment_index < b.segment_index then true
  else if b.segment_index < a.segment_index then false
  else charsLt a.notetaker_id.toList b.notetaker_id.toList

/-- Stable insertion by the entry key. -/
def insertEntry (e : NormalizedEntry) : List NormalizedEntry → List NormalizedEntry
  | [] => [e]
  | g :: rest => if entryKeyLt g e then g :: insertEntry e rest else e :: g :: rest

/-- Stable sort by the entry key (Python's stable `list.sort`). -/
def sortEntries : List NormalizedEntry → List NormalizedEntry
  | [] => []
  | e :: rest => insertEntry e (sortEntries rest)

/-- `MERGE_MARKER_TEXT`. -/
def MERGE_MARKER_TEXT : String := "[Recording resumed after disconnection]"

/-- The marker-insertion walk of `_insert_gap_markers` (`prev` is the last
timestamp seen, `idx` the enumeration index). -/
def gapMarkersGo (prev : Option ℚ) (idx : Int) : List NormalizedEntry → List NormalizedEntry
  | [] => []
  | e :: rest =>
    let add : List NormalizedEntry :=
      match prev, e.timestamp with
      | some p, some t =>
        if t - p > 30 then
          [⟨none, MERGE_MARKER_TEXT, some (p + 1 / 10000), "system", -1000000 + idx⟩]
        else []
      | _, _ => []
    let prev' := match e.timestamp with
      | some t => some t
      | none => prev
    add ++ e :: gapMarkersGo prev' (idx + 1) rest

/-- `_insert_gap_markers`: insert markers, then re-sort with the same key. -/
def insert_gap_markers (entries : List NormalizedEntry) : List NormalizedEntry :=
  match entries with
  | [] => []
  | _ => sortEntries (gapMarkersGo none 0 entries)

/-- One entry of the merged JSON payload. -/
def entryJson (e : NormalizedEntry) : Json :=
  Json.obj [("speaker", match e.speaker with | some s => Json.str s | none => Json.null),
    ("text", Json.str e.text),
    ("timestamp", match e.timestamp with | some t => Json.num t | none => Json.null),
    ("notetaker_id", Json.str e.notetaker_id),
    ("segment_index", Json.num (e.segment_index : ℚ))]

/-- The merged JSON payload (`merged_payload` dict). -/
def mergedPayload (event_id event_start : String) (files : List FsFile)
    (ordered : List NormalizedEntry) : Json :=
  Json.obj [("object", Json.str "merged_transcript"),
    ("meeting_key", Json.obj [("event_id", Json.str event_id),
      ("event_start", Json.str event_start)]),
    ("source_files", Json.arr (files.map (fun f => Json.str f.name))),
    ("entries", Json.arr (ordered.map entryJson))]

/-- The human-readable lines. -/
def renderLines (entries : List NormalizedEntry) : List String :=
  entries.map fun e =>
    if e.text = MERGE_MARKER_TEXT then MERGE_MARKER_TEXT
    else
      match e.speaker with
      | some sp => sp ++ ": " ++ e.text
      | none => e.text

/-- The `.txt` output bytes: `"\n".join(lines).strip() + "\n"`. -/
def renderText (entries : List NormalizedEntry) : String :=
  String.mk (Grouping.pyStrip (String.intercalate "\n" (renderLines entries)).toList) ++ "\n"

/-- The common `<event_id>__<token>` stem of the two output names. -/
def mergedStem (event_id event_start : String) : String :=
  event_id ++ "__" ++ safeToken event_start

/-- The merged JSON output name. -/
def mergedJsonName (event_id event_start : String) : String :=
  mergedStem event_id event_start ++ "__MERGED.transcript.json"

/-- The merged text output name. -/
def mergedTxtName (event_id event_start : String) : String :=
  mergedStem event_id event_start ++ "__MERGED.txt"

/-- `merge_transcripts_for_meeting`: returns the directory after the call
and the returned path pair (`none` stands for the `(None, None)` no-op
return). `now_ctime` is the `st_ctime` the written outputs get. -/
def merge_transcripts_for_meeting (fs : Fs) (now_ctime : Int)
    (event_id event_start : String) (force : Bool) : Fs × Option (String × String) :=
  let files := list_transcript_files fs event_id event_start
  if files.isEmpty then (fs, none)
  else if !force && fsHas fs (mergedJsonName event_id event_start) &&
      fsHas fs (mergedTxtName event_id event_start) then
    (fs, some (mergedJsonName event_id event_start, mergedTxtName event_id event_start))
  else
    let ordered := insert_gap_markers (sortEntries (globalize files))
    let fs₁ := fsWrite (mergedJsonName event_id event_start) now_ctime
      (FileData.jsonFile (mergedPayload event_id event_start files ordered)) fs
    let fs₂ := fsWrite (mergedTxtName event_id event_start) now_ctime
      (FileData.textFile (renderText ordered)) fs₁
    (fs₂, some (mergedJsonName event_id event_start, mergedTxtName event_id event_start))

theorem fsWrite_preserve_other {f : FsFile} {name : String} {ct : Int} {d : FileData} :
    ∀ {fs : Fs}, f ∈ fs → f.name ≠ name → f ∈ fsWrite name ct d fs
  | [], h, _ => absurd h (List.not_mem_nil f)
  | g :: rest, h, hne => by
    unfold fsWrite
    rcases List.mem_cons.mp h with rfl | h'
    · rw [if_neg hne]
      exact List.mem_cons_self _ _
    · split
      · exact List.mem_cons_of_mem _ h'
      · exact List.mem_cons_of_mem _ (fsWrite_preserve_other h' hne)

theorem filter_fsWrite {pred : String → Bool} {name : String} {ct : Int} {d : FileData}
    (hname : pred name = false) :
    ∀ (fs : Fs), (fsWrite name ct d fs).filter (fun f => pred f.name) =
      fs.filter (fun f => pred f.name)
  | [] => by simp [fsWrite, List.filter, hname]
  | g :: rest => by
    unfold fsWrite
    by_cases h : g.name = name
    · have hg : pred g.name = false := by rw [h]; exact hname
      rw [if_pos h]
      simp [List.filter_cons, hname, hg]
    · rw [if_neg h]
      simp only [List.filter_cons]
      rw [filter_fsWrite hname rest]

theorem contains_append_right {sub l₂ : List Char}
    (h : Calendar.containsChars sub l₂ = true) :
    ∀ (l₁ : List Char), Calendar.containsChars sub (l₁ ++ l₂) = true
  | [] => h
  | c :: l₁ => by
    rw [List.cons_append]
    unfold Calendar.containsChars
    rw [contains_append_right h l₁]
    simp

theorem strContains_mergedJsonName (e s : String) :
    Supervisor.strContains "__MERGED." (mergedJsonName e s) = true := by
  unfold Supervisor.strContains
  rw [show (mergedJsonName e s).toList =
      (mergedStem e s).data ++ ("__MERGED.transcript.json").data from
    String.data_append _ _]
  exact contains_append_right (by decide) _

theorem strContains_mergedTxtName (e s : String) :
    Supervisor.strContains "__MERGED." (mergedTxtName e s) = true := by
  unfold Supervisor.strContains
  rw [show (mergedTxtName e s).toList =
      (mergedStem e s).data ++ ("__MERGED.txt").data from String.data_append _ _]
  exact contains_append_right (by decide) _

theorem isFragmentName_mergedJsonName (e s : String) :
    isFragmentName e s (mergedJsonName e s) = false := by
  unfold isFragmentName
  rw [strContains_mergedJsonName]
  simp

theorem isFragmentName_mergedTxtName (e s : String) :
    isFragmentName e s (mergedTxtName e s) = false := by
  unfold isFragmentName
  rw [strContains_mergedTxtName]
  simp

theorem mergedJsonName_ne_mergedTxtName (e s : String) :
    mergedJsonName e s ≠ mergedTxtName e s := by
  intro h
  have hd := congrArg String.data h
  rw [show (mergedJsonName e s).data =
      (mergedStem e s).data ++ ("__MERGED.transcript.json").data from
    String.data_append _ _,
    show (mergedTxtName e s).data = (mergedStem e s).data ++ ("__MERGED.txt").data from
    String.data_append _ _] at hd
  exact absurd (List.append_cancel_left hd) (by decide)

/-- The first directory entry with a given name. -/
def firstNamed (fs : Fs) (n : String) : Option FsFile := fs.find? (·.name = n)

theorem firstNamed_fsWrite_same (n : String) (c : Int) (d : FileData) :
    ∀ (fs : Fs), firstNamed (fsWrite n c d fs) n = some ⟨n, c, d⟩
  | [] => by simp [fsWrite, firstNamed, List.find?]
  | g :: rest => by
    unfold fsWrite
    by_cases h : g.name = n
    · rw [if_pos h]
      simp [firstNamed, List.find?]
    · rw [if_neg h]
      unfold firstNamed at *
      rw [List.find?_cons_of_neg _ (by simpa using h)]
      exact firstNamed_fsWrite_same n c d rest

theorem firstNamed_fsWrite_other {m n : String} (hmn : m ≠ n) (c : Int) (d : FileData) :
    ∀ (fs : Fs), firstNamed (fsWrite m c d fs) n = firstNamed fs n
  | [] => by simp [fsWrite, firstNamed, List.find?, hmn]
  | g :: rest => by
    unfold fsWrite
    by_cases h : g.name = m
    · rw [if_pos h]
      unfold firstNamed
      rw [List.find?_cons_of_neg _ (by simpa using hmn),
        List.find?_cons_of_neg _ (by simp [h, hmn])]
    · rw [if_neg h]
      unfold firstNamed at *
      by_cases h' : g.name = n
      · rw [List.find?_cons_of_pos _ (by simpa using h'),
          List.find?_cons_of_pos _ (by simpa using h')]
      · rw [List.find?_cons_of_neg _ (by simpa using h'),
          List.find?_cons_of_neg _ (by simpa using h')]
        exact firstNamed_fsWrite_other hmn c d rest

theorem fsWrite_of_firstNamed {n : String} {c : Int} {d : FileData} :
    ∀ {fs : Fs}, firstNamed fs n = some ⟨n, c, d⟩ → fsWrite n c d fs = fs
  | [], h => by simp [firstNamed, List.find?] at h
  | g :: rest, h => by
    unfold fsWrite
    by_cases hg : g.name = n
    · rw [if_pos hg]
      unfold firstNamed at h
      rw [List.find?_cons_of_pos _ (by simpa using hg)] at h
      rw [Option.some.inj h]
    · rw [if_neg hg]
      unfold firstNamed at h
      rw [List.find?_cons_of_neg _ (by simpa using hg)] at h
      rw [fsWrite_of_firstNamed h]

theorem list_transcript_files_fsWrite {e s name : String}
    (hname : isFragmentName e s name = false) (ct : Int) (d : FileData) (fs : Fs) :
    list_transcript_files (fsWrite name ct d fs) e s = list_transcript_files fs e s := by
  unfold list_transcript_files
  rw [filter_fsWrite hname fs]

/-- C7 (confirmed): (1) without `force`, when both merged outputs already
exist the merge is a no-op — the directory is returned unchanged, so both
output files stay byte-identical; (2) a merge never mutates or deletes any
file whose name is not one of the two `__MERGED.` outputs — in particular
no fragment; (3) with `force`, re-running on the resulting directory (same
fragment files, hence identical inputs) rewrites byte-identical outputs:
the double run equals the single run. -/
theorem C7_merge_no_op_and_deterministic :
    (∀ (fs : Fs) (now : Int) (e s : String),
      fsHas fs (mergedJsonName e s) = true → fsHas fs (mergedTxtName e s) = true →
      (merge_transcripts_for_meeting fs now e s false).1 = fs)
    ∧ (∀ (fs : Fs) (now : Int) (e s : String) (force : Bool) (f : FsFile),
        f ∈ fs → Supervisor.strContains "__MERGED." f.name = false →
        f ∈ (merge_transcripts_for_meeting fs now e s force).1)
    ∧ (∀ (fs : Fs) (now : Int) (e s : String),
        merge_transcripts_for_meeting
            (merge_transcripts_for_meeting fs now e s true).1 now e s true =
          merge_transcripts_for_meeting fs now e s true) := by
  refine ⟨?_, ?_, ?_⟩
  · intro fs now e s h1 h2
    by_cases hemp : (list_transcript_files fs e s).isEmpty = true
    · simp [merge_transcripts_for_meeting, hemp]
    · simp [merge_transcripts_for_meeting, hemp, h1, h2]
  · intro fs now e s force f hf hnm
    have hj : f.name ≠ mergedJsonName e s := by
      intro h
      rw [h, strContains_mergedJsonName] at hnm
      cases hnm
    have ht : f.name ≠ mergedTxtName e s := by
      intro h
      rw [h, strContains_mergedTxtName] at hnm
      cases hnm
    by_cases hemp : (list_transcript_files fs e s).isEmpty = true
    · simpa [merge_transcripts_for_meeting, hemp] using hf
    · by_cases hskip : (!force && fsHas fs (mergedJsonName e s) &&
          fsHas fs (mergedTxtName e s)) = true
      · simpa [merge_transcripts_for_meeting, hemp, hskip] using hf
      · have hres : (merge_transcripts_for_meeting fs now e s force).1 =
            fsWrite (mergedTxtName e s) now
              (FileData.textFile (renderText (insert_gap_markers (sortEntries
                (globalize (list_transcript_files fs e s))))))
              (fsWrite (mergedJsonName e s) now
                (FileData.jsonFile (mergedPayload e s (list_transcript_files fs e s)
                  (insert_gap_markers (sortEntries
                    (globalize (list_transcript_files fs e s))))))
                fs) := by
          simp [merge_transcripts_for_meeting, hemp, hskip]
        rw [hres]
        exact fsWrite_preserve_other (fsWrite_preserve_other hf hj) ht
  · intro fs now e s
    by_cases hemp : (list_transcript_files fs e s).isEmpty = true
    · have h1 : merge_transcripts_for_meeting fs now e s true = (fs, none) := by
        simp [merge_transcripts_for_meeting, hemp]
      rw [h1]
      exact h1
    · have h1 : merge_transcripts_for_meeting fs now e s true =
          (fsWrite (mergedTxtName e s) now
            (FileData.textFile (renderText (insert_gap_markers (sortEntries
              (globalize (list_transcript_files fs e s))))))
            (fsWrite (mergedJsonName e s) now
              (FileData.jsonFile (mergedPayload e s (list_transcript_files fs e s)
                (insert_gap_markers (sortEntries
                  (globalize (list_transcript_files fs e s))))))
              fs),
            some (mergedJsonName e s, mergedTxtName e s)) := by
        simp [merge_transcripts_for_meeting, hemp]
    -- the directory after the first run, and its unchanged fragment listing
      rw [h1]
      have hfiles2 : list_transcript_files (merge_transcripts_for_meeting fs now e s true).1
          e s = list_transcript_files fs e s := by
        rw [h1]
        rw [list_transcript_files_fsWrite (isFragmentName_mergedTxtName e s),
          list_transcript_files_fsWrite (isFragmentName_mergedJsonName e s)]
      rw [h1] at hfiles2
      have habsorbJson : fsWrite (mergedJsonName e s) now
          (FileData.jsonFile (mergedPayload e s (list_transcript_files fs e s)
            (insert_gap_markers (sortEntries (globalize (list_transcript_files fs e s))))))
          (fsWrite (mergedTxtName e s) now
            (FileData.textFile (renderText (insert_gap_markers (sortEntries
              (globalize (list_transcript_files fs e s))))))
            (fsWrite (mergedJsonName e s) now
              (FileData.jsonFile (mergedPayload e s (list_transcript_files fs e s)
                (insert_gap_markers (sortEntries
                  (globalize (list_transcript_files fs e s))))))
              fs)) =
          fsWrite (mergedTxtName e s) now
            (FileData.textFile (renderText (insert_gap_markers (sortEntries
              (globalize (list_transcript_files fs e s))))))
            (fsWrite (mergedJsonName e s) now
              (FileData.jsonFile (mergedPayload e s (list_transcript_files fs e s)
                (insert_gap_markers (sortEntries
                  (globalize (list_transcript_files fs e s))))))
              fs) := by
        apply fsWrite_of_firstNamed
        rw [firstNamed_fsWrite_other (mergedJsonName_ne_mergedTxtName e s).symm]
        exact firstNamed_fsWrite_same _ _ _ _
      have habsorbTxt : fsWrite (mergedTxtName e s) now
          (FileData.textFile (renderText (insert_gap_markers (sortEntries
            (globalize (list_transcript_files fs e s))))))
          (fsWrite (mergedTxtName e s) now
            (FileData.textFile (renderText (insert_gap_markers (sortEntries
              (globalize (list_transcript_files fs e s))))))
            (fsWrite (mergedJsonName e s) now
              (FileData.jsonFile (mergedPayload e s (list_transcript_files fs e s)
                (insert_gap_markers (sortEntries
                  (globalize (list_transcript_files fs e s))))))
              fs)) =
          fsWrite (mergedTxtName e s) now
            (FileData.textFile (renderText (insert_gap_markers (sortEntries
              (globalize (list_transcript_files fs e s))))))
            (fsWrite (mergedJsonName e s) now
              (FileData.jsonFile (mergedPayload e s (list_transcript_files fs e s)
                (insert_gap_markers (sortEntries
                  (globalize (list_transcript_files fs e s))))))
              fs) := by
        apply fsWrite_of_firstNamed
        exact firstNamed_fsWrite_same _ _ _ _
      simp only [merge_transcripts_for_meeting, hfiles2, habsorbJson, habsorbTxt]
      rw [if_neg hemp]
      split
      · rfl
      · rfl

/-- A concrete transcript fragment (raw payload). -/
def fragFileW : FsFile :=
  ⟨"ev__2025-01-01T10-00-00+00-00__nt1.transcript.json", 1,
    FileData.jsonFile (Json.obj [("type", Json.str "raw"),
      ("transcript", Json.str "hello world")])⟩

/-- A concrete directory holding one fragment and both merged outputs. -/
def fsW : Fs :=
  [fragFileW,
   ⟨mergedJsonName "ev" "2025-01-01T10:00:00+00:00", 2, FileData.jsonFile Json.null⟩,
   ⟨mergedTxtName "ev" "2025-01-01T10:00:00+00:00", 2, FileData.textFile "old"⟩]

/-- C7 witness: the theorem applied to a concrete directory — the
no-`force` call is a no-op, the fragment survives a forced merge, and the
forced merge is idempotent. -/
theorem C7_merge_witness :
    fsHas fsW (mergedJsonName "ev" "2025-01-01T10:00:00+00:00") = true
    ∧ fsHas fsW (mergedTxtName "ev" "2025-01-01T10:00:00+00:00") = true
    ∧ (merge_transcripts_for_meeting fsW 5 "ev" "2025-01-01T10:00:00+00:00" false).1 = fsW
    ∧ fragFileW ∈ (merge_transcripts_for_meeting fsW 5 "ev" "2025-01-01T10:00:00+00:00" true).1
    ∧ merge_transcripts_for_meeting
        (merge_transcripts_for_meeting fsW 5 "ev" "2025-01-01T10:00:00+00:00" true).1
        5 "ev" "2025-01-01T10:00:00+00:00" true =
      merge_transcripts_for_meeting fsW 5 "ev" "2025-01-01T10:00:00+00:00" true := by
  refine ⟨by decide, by decide, ?_, ?_, ?_⟩
  · exact C7_merge_no_op_and_deterministic.1 fsW 5 "ev" "2025-01-01T10:00:00+00:00"
      (by decide) (by decide)
  · exact C7_merge_no_op_and_deterministic.2.1 fsW 5 "ev" "2025-01-01T10:00:00+00:00"
      true fragFileW (List.mem_cons_self _ _) (by decide)
  · exact C7_merge_no_op_and_deterministic.2.2 fsW 5 "ev" "2025-01-01T10:00:00+00:00"

end Merge

end SmartMeetOS
